import Mathlib

/-!
Verification development for the `unwind` disassembler
(`src/unwind/disasm.py`).

The development shallow-embeds the three layers of the source that the
claims concern:

* the value deserializer `_Disassembler.unmarshal_node` (marshal tags,
  string interning, bignums, collections, code objects);
* the bytecode decode loop inside the `_TYPE_CODE` branch of
  `unmarshal_node` (EXTENDED_ARG folding and operand resolution);
* the statement-reconstruction engine `_CommandHandler.handle`.

Python values are embedded as the inductive `Value`; handler stack
entries as `SymValue`; machine integers are `Nat`/`Int` with explicit
signed decoding.  Fallible code returns `Except Err`.  The operand
stack is kept in Python list order (top of stack at the END of the
list), so that `pop`, `stack[-1]`, `stack[-2:]` translate verbatim.

The opcode table (`unwind/op.py`) is not part of `src/`; it is an
external collaborator consumed through `from_bytecode`, `has_argument`
and `has_kwonlyargcount`.  It is modelled abstractly by the structure
`OpTable` below (see its doc comment).
-/

/-- Symbolic opcodes.  One constructor per opcode name that
`src/unwind/disasm.py` references on the `op` module (the full opcode
table lives in the external `op` module; the handler treats any other
opcode as unhandled, so the closed set referenced by the source
suffices for its semantics). -/
inductive Op where
  | NOP | POP_TOP | ROT_TWO | ROT_THREE | ROT_FOUR
  | UNARY_POSITIVE | UNARY_NEGATIVE | UNARY_NOT | UNARY_INVERT
  | LOAD_CONST | LOAD_NAME
  | BUILD_LIST | BUILD_SET | BUILD_TUPLE | BUILD_MAP | STORE_MAP
  | BINARY_POWER | BINARY_MULTIPLY | BINARY_FLOOR_DIVIDE
  | BINARY_TRUE_DIVIDE | BINARY_MODULO | BINARY_ADD | BINARY_SUBTRACT
  | BINARY_LSHIFT | BINARY_RSHIFT | BINARY_AND | BINARY_XOR | BINARY_OR
  | INPLACE_POWER | INPLACE_MULTIPLY | INPLACE_FLOOR_DIVIDE
  | INPLACE_TRUE_DIVIDE | INPLACE_MODULO | INPLACE_ADD | INPLACE_SUBTRACT
  | INPLACE_LSHIFT | INPLACE_RSHIFT | INPLACE_AND | INPLACE_XOR | INPLACE_OR
  | SLICE_0 | SLICE_1 | SLICE_2 | SLICE_3
  | STORE_SLICE_0 | STORE_SLICE_1 | STORE_SLICE_2 | STORE_SLICE_3
  | DELETE_SLICE_0 | DELETE_SLICE_1 | DELETE_SLICE_2 | DELETE_SLICE_3
  | STORE_SUBSCR | DELETE_SUBSCR | BINARY_SUBSCR
  | IMPORT_NAME | IMPORT_STAR | IMPORT_FROM
  | PRINT_ITEM_TO | PRINT_NEWLINE_TO | PRINT_ITEM | PRINT_NEWLINE
  | CALL_FUNCTION | CALL_FUNCTION_VAR | CALL_FUNCTION_KW | CALL_FUNCTION_VAR_KW
  | MAKE_FUNCTION | RETURN_VALUE | DELETE_NAME | STORE_NAME
  | LOAD_ATTR | STORE_ATTR | DELETE_ATTR
  | LOAD_GLOBAL | STORE_GLOBAL | DELETE_GLOBAL
  | LOAD_FAST | STORE_FAST | DELETE_FAST
  | EXTENDED_ARG
deriving DecidableEq, Repr

/-- Failure outcomes.  The source signals `DisassemblerException` for
format errors; other constructors stand for the Python runtime errors
the source can raise while reconstructing (`IndexError` on popping an
empty list, `TypeError`, `AttributeError`, `NameError` for the unbound
`pop_n_rev` in the `DELETE_SUBSCR` branch, `struct.error` for
length-mismatched `struct.unpack`). -/
inductive Err where
  | stackUnderflow           -- IndexError: pop from empty list
  | indexError               -- IndexError: sequence index out of range
  | typeError                -- TypeError from a Python primitive
  | attributeError           -- AttributeError: missing attribute
  | nameError                -- NameError: unbound name
  | structError              -- struct.error: byte count mismatch
  | unknownBytecode (b : Nat)       -- 'Unknown bytecode 0x%02X'
  | invalidArgument (a : Nat)       -- 'Invalid argument %d for opcode %s'
  | malformedStringRef (i : Int)    -- 'String index %d is outside string table'
  | badCodeString (t : Int)         -- 'Bytecode was not marshalled as a string'
  | unknownType (t : Int)           -- 'Cannot unmarshal unknown type 0x%02X'
  | truncatedArgument        -- fewer than 2 operand bytes remain
  | notModelled              -- embedding artifact: unmodelled corner (see uses)
  | outOfFuel                -- embedding artifact: recursion fuel exhausted
deriving DecidableEq, Repr

mutual
/-- A deserialized Python value, as produced by `unmarshal_node`.
`vfloat`/`vcomplex`/`vunicode` carry the raw bytes read from the input
(IEEE-754 and UTF-8 interpretation is not needed by any claim).
`vcode` carries the `CodeObject` fields in the source's declaration
order, plus the decoded `opcodes` list. -/
inductive Value where
  | vnone
  | vbool (b : Bool)
  | vint (n : Int)
  | vfloat (bytes : List Nat)      -- 8 raw little-endian IEEE-754 bytes
  | vcomplex (bytes : List Nat)    -- 16 raw bytes (two doubles)
  | vstr (s : String)
  | vunicode (bytes : List Nat)    -- raw UTF-8 bytes
  | vtuple (xs : List Value)
  | vlist (xs : List Value)
  | vset (xs : List Value)
  | vfrozenset (xs : List Value)
  | vcode (co_argcount co_kwonlyargcount co_nlocals co_stacksize co_flags : Int)
          (co_code : List Nat)
          (co_consts co_names co_varnames co_freevars co_cellvars
           co_filename co_name : Value)
          (co_firstlineno : Int) (co_lnotab : Value)
          (opcodes : List Opc)

/-- A decoded instruction (`disasm.Opcode`): byte offset, size in bytes
(1 or 3), symbolic opcode, and optional resolved argument (`Optionnone`
models Python `None` for argument-less opcodes). -/
inductive Opc where
  | mk (offset size : Nat) (opcode : Op) (argument : Option Value)
end

mutual
/-- Python `repr()` of a deserialized value, as far as the
reconstruction engine needs it.  String escaping, the Python 2 long
`L` suffix, float formatting and the (globally stateful) `CodeObject`
repr are not modelled; no claim prints those values. -/
def pyRepr : Value → String
  | .vnone => "None"
  | .vbool b => if b then "True" else "False"
  | .vint n => toString n
  | .vfloat _ => "<float>"
  | .vcomplex _ => "<complex>"
  | .vstr s => "\x27" ++ s ++ "\x27"
  | .vunicode _ => "<unicode>"
  | .vtuple [x] => "(" ++ pyRepr x ++ ",)"
  | .vtuple xs => "(" ++ String.intercalate ", " (pyReprList xs) ++ ")"
  | .vlist xs => "[" ++ String.intercalate ", " (pyReprList xs) ++ "]"
  | .vset xs => "set([" ++ String.intercalate ", " (pyReprList xs) ++ "])"
  | .vfrozenset xs => "frozenset([" ++ String.intercalate ", " (pyReprList xs) ++ "])"
  | .vcode _ _ _ _ _ _ _ _ _ _ _ _ _ _ _ _ => "<code>"

def pyReprList : List Value → List String
  | [] => []
  | x :: xs => pyRepr x :: pyReprList xs
end

/-- Python `str()` of a value: identical to `repr()` except for plain
strings (objects without `__str__` fall back to `__repr__`). -/
def pyStr : Value → String
  | .vstr s => s
  | v => pyRepr v

/-- Truth value of the first 7 bytes and the sign-masked last byte of a
little-endian IEEE-754 double being zero, i.e. the double is plus or
minus `0.0`. -/
def floatIsZero (bytes : List Nat) : Bool :=
  (bytes.take 7).all (· == 0) && (bytes.getD 7 0 == 0 || bytes.getD 7 0 == 128)

/-- Python truthiness (`if x:`) of a deserialized value. -/
def valueTruthy : Value → Bool
  | .vnone => false
  | .vbool b => b
  | .vint n => n != 0
  | .vfloat bs => !floatIsZero bs
  | .vcomplex bs => !(floatIsZero (bs.take 8) && floatIsZero (bs.drop 8))
  | .vstr s => s != ""
  | .vunicode bs => !bs.isEmpty
  | .vtuple xs => !xs.isEmpty
  | .vlist xs => !xs.isEmpty
  | .vset xs => !xs.isEmpty
  | .vfrozenset xs => !xs.isEmpty
  | .vcode _ _ _ _ _ _ _ _ _ _ _ _ _ _ _ _ => true

mutual
/-- Structural equality on values (Python `==` for the native values
that can appear as dict keys; code objects compare by their fields,
whereas Python compares them by identity -- no claim depends on that
corner). -/
def valueBeq : Value → Value → Bool
  | .vnone, .vnone => true
  | .vbool a, .vbool b => a == b
  | .vint a, .vint b => a == b
  | .vfloat a, .vfloat b => a == b
  | .vcomplex a, .vcomplex b => a == b
  | .vstr a, .vstr b => a == b
  | .vunicode a, .vunicode b => a == b
  | .vtuple a, .vtuple b => valueBeqList a b
  | .vlist a, .vlist b => valueBeqList a b
  | .vset a, .vset b => valueBeqList a b
  | .vfrozenset a, .vfrozenset b => valueBeqList a b
  | .vcode a1 a2 a3 a4 a5 c v1 v2 v3 v4 v5 v6 v7 a6 v8 ops,
    .vcode b1 b2 b3 b4 b5 d w1 w2 w3 w4 w5 w6 w7 b6 w8 ops2 =>
      a1 == b1 && a2 == b2 && a3 == b3 && a4 == b4 && a5 == b5 && c == d &&
      valueBeq v1 w1 && valueBeq v2 w2 && valueBeq v3 w3 && valueBeq v4 w4 &&
      valueBeq v5 w5 && valueBeq v6 w6 && valueBeq v7 w7 && a6 == b6 &&
      valueBeq v8 w8 && opcListBeq ops ops2
  | _, _ => false

def valueBeqList : List Value → List Value → Bool
  | [], [] => true
  | x :: xs, y :: ys => valueBeq x y && valueBeqList xs ys
  | _, _ => false

def optValueBeq : Option Value → Option Value → Bool
  | Option.none, Option.none => true
  | some v, some w => valueBeq v w
  | _, _ => false

def opcBeq : Opc → Opc → Bool
  | .mk o1 s1 c1 a1, .mk o2 s2 c2 a2 =>
      o1 == o2 && s1 == s2 && c1 == c2 && optValueBeq a1 a2

def opcListBeq : List Opc → List Opc → Bool
  | [], [] => true
  | x :: xs, y :: ys => opcBeq x y && opcListBeq xs ys
  | _, _ => false
end

/-- An entry of the reconstruction engine's operand stack: either one
of the source's helper instances (`_PyObject`, `_FuncCall`,
`_MathOperation`) or a native Python value pushed directly (strings
built by `BINARY_SUBSCR`/`IMPORT_FROM`, the resolved argument pushed by
`IMPORT_NAME`, and the containers built by `BUILD_LIST`/`BUILD_SET`/
`BUILD_TUPLE`/`BUILD_MAP`). -/
inductive SymValue where
  | pyObject (val : Value) (print_raw : Bool) (skip_it : Bool)  -- _PyObject
  | funcCall (val : String)                                     -- _FuncCall (its precomputed self.val)
  | mathOp (val1 val2 : SymValue) (operation : String)          -- _MathOperation
  | ofValue (v : Value)                 -- a native value pushed onto the stack
  | list (xs : List SymValue)           -- native Python list of stack entries
  | tuple (xs : List SymValue)          -- native Python tuple
  | set (xs : List SymValue)            -- native Python set (built from distinct instances; no dedup)
  | dict (pairs : List (SymValue × SymValue))  -- native Python dict, insertion order

mutual
/-- Python `repr()` of a stack entry: `_PyObject.__repr__` formats raw
(`str`) or defers to the repr of the wrapped value; `_FuncCall.__repr__`
returns its precomputed `self.val`; `_MathOperation.__repr__` is
`"(left op right)"` via `str` of the operands -- `str` of a stack entry
differs from its repr only for a native string (printed unquoted),
hence the four unfolded operand cases.  Python 2 iterates dicts and
sets in hash order; insertion order is used here (no claim prints
them). -/
def symRepr : SymValue → String
  | .pyObject v raw _ => if raw then pyStr v else pyRepr v
  | .funcCall v => v
  | .mathOp (.ofValue (.vstr s1)) (.ofValue (.vstr s2)) o =>
      "(" ++ s1 ++ " " ++ o ++ " " ++ s2 ++ ")"
  | .mathOp (.ofValue (.vstr s1)) b o => "(" ++ s1 ++ " " ++ o ++ " " ++ symRepr b ++ ")"
  | .mathOp a (.ofValue (.vstr s2)) o => "(" ++ symRepr a ++ " " ++ o ++ " " ++ s2 ++ ")"
  | .mathOp a b o => "(" ++ symRepr a ++ " " ++ o ++ " " ++ symRepr b ++ ")"
  | .ofValue v => pyRepr v
  | .list xs => "[" ++ String.intercalate ", " (symReprList xs) ++ "]"
  | .tuple [x] => "(" ++ symRepr x ++ ",)"
  | .tuple xs => "(" ++ String.intercalate ", " (symReprList xs) ++ ")"
  | .set xs => "set([" ++ String.intercalate ", " (symReprList xs) ++ "])"
  | .dict ps => "\x7b" ++ String.intercalate ", " (symReprPairs ps) ++ "\x7d"

def symReprList : List SymValue → List String
  | [] => []
  | x :: xs => symRepr x :: symReprList xs

def symReprPairs : List (SymValue × SymValue) → List String
  | [] => []
  | (k, v) :: ps => (symRepr k ++ ": " ++ symRepr v) :: symReprPairs ps
end

/-- Python `str()` of a stack entry (`"{}".format(x)`): a native string
prints unquoted; the helper instances have no `__str__`, so `str` falls
back to their `__repr__`; container `str` equals `repr` (and `str` of
every other native value equals its repr as well, see `pyStr`). -/
def symStr : SymValue → String
  | .ofValue (.vstr s) => s
  | v => symRepr v

mutual
/-- Equality test used for dict-key lookup.  Python compares native
values by `==` and the helper instances by identity; a structural
embedding cannot track identity, so instances compare structurally
(equivalent for every claim, whose keys are distinct). -/
def symBeq : SymValue → SymValue → Bool
  | .pyObject v r s, .pyObject w r2 s2 => valueBeq v w && r == r2 && s == s2
  | .funcCall a, .funcCall b => a == b
  | .mathOp a b o, .mathOp c d o2 => symBeq a c && symBeq b d && o == o2
  | .ofValue v, .ofValue w => valueBeq v w
  | .list a, .list b => symBeqList a b
  | .tuple a, .tuple b => symBeqList a b
  | .set a, .set b => symBeqList a b
  | .dict a, .dict b => symBeqPairs a b
  | _, _ => false

def symBeqList : List SymValue → List SymValue → Bool
  | [], [] => true
  | x :: xs, y :: ys => symBeq x y && symBeqList xs ys
  | _, _ => false

def symBeqPairs : List (SymValue × SymValue) → List (SymValue × SymValue) → Bool
  | [], [] => true
  | (k, v) :: xs, (k2, v2) :: ys => symBeq k k2 && symBeq v v2 && symBeqPairs xs ys
  | _, _ => false
end

/-- Python dict assignment `d[key] = value`: overwrite the value of an
existing equal key (keeping its position and original key object), else
append the new pair. -/
def dictAssign (ps : List (SymValue × SymValue)) (key value : SymValue) :
    List (SymValue × SymValue) :=
  if ps.any (fun p => symBeq p.1 key) then
    ps.map (fun p => if symBeq p.1 key then (p.1, value) else p)
  else
    ps ++ [(key, value)]

/-- Python truthiness of a stack entry (`if pargs_ext:`): the helper
instances define neither `__bool__` nor `__len__`, hence are truthy;
native values and containers use Python truthiness. -/
def symTruthy : SymValue → Bool
  | .pyObject _ _ _ => true
  | .funcCall _ => true
  | .mathOp _ _ _ => true
  | .ofValue v => valueTruthy v
  | .list xs => !xs.isEmpty
  | .tuple xs => !xs.isEmpty
  | .set xs => !xs.isEmpty
  | .dict ps => !ps.isEmpty

/-- The membership lists declared in `_CommandHandler.__init__`. -/
def slice_expression : List Op := [.SLICE_0, .SLICE_1, .SLICE_2, .SLICE_3]

def slice_statemant : List Op :=
  [.STORE_SLICE_0, .STORE_SLICE_1, .STORE_SLICE_2, .STORE_SLICE_3,
   .DELETE_SLICE_0, .DELETE_SLICE_1, .DELETE_SLICE_2, .DELETE_SLICE_3,
   .STORE_SUBSCR, .DELETE_SUBSCR]

def math_operations : List Op :=
  [.BINARY_POWER, .BINARY_MULTIPLY, .BINARY_FLOOR_DIVIDE,
   .BINARY_TRUE_DIVIDE, .BINARY_MODULO, .BINARY_ADD,
   .BINARY_SUBTRACT, .BINARY_LSHIFT, .BINARY_RSHIFT,
   .BINARY_AND, .BINARY_XOR, .BINARY_OR,
   .INPLACE_POWER, .INPLACE_MULTIPLY, .INPLACE_FLOOR_DIVIDE,
   .INPLACE_TRUE_DIVIDE, .INPLACE_MODULO, .INPLACE_ADD,
   .INPLACE_SUBTRACT, .INPLACE_LSHIFT, .INPLACE_RSHIFT,
   .INPLACE_AND, .INPLACE_XOR, .INPLACE_OR]

def function_call : List Op :=
  [.CALL_FUNCTION, .CALL_FUNCTION_VAR, .CALL_FUNCTION_KW, .CALL_FUNCTION_VAR_KW]

def pwr_operations : List Op := [.BINARY_POWER, .INPLACE_POWER]

def mul_operations : List Op := [.BINARY_MULTIPLY, .INPLACE_MULTIPLY]

def floor_div_operations : List Op := [.BINARY_FLOOR_DIVIDE, .INPLACE_FLOOR_DIVIDE]

def true_div_operations : List Op := [.BINARY_TRUE_DIVIDE, .INPLACE_TRUE_DIVIDE]

def mod_operations : List Op := [.BINARY_MODULO, .INPLACE_MODULO]

def add_operations : List Op := [.BINARY_ADD, .INPLACE_ADD]

def sub_operations : List Op := [.BINARY_SUBTRACT, .INPLACE_SUBTRACT]

def shl_operations : List Op := [.BINARY_LSHIFT, .INPLACE_LSHIFT]

def shr_operations : List Op := [.BINARY_RSHIFT, .INPLACE_RSHIFT]

def and_operations : List Op := [.BINARY_AND, .INPLACE_AND]

def xor_operations : List Op := [.BINARY_XOR, .INPLACE_XOR]

def or_operations : List Op := [.BINARY_OR, .INPLACE_OR]

/-- State of one `_CommandHandler` instance: operand stack (top of
stack at the END of the list, i.e. Python list order), emitted output
lines (`self.result`), and the indentation counter. -/
structure HState where
  stack : List SymValue
  result : List String
  indent_count : Int

/-- Python string repetition `n * s` (a non-positive count yields the
empty string). -/
def pyStrMul (n : Int) (s : String) : String :=
  String.join (List.replicate n.toNat s)

/-- The `indent` method: `self.indent_count * self.INDENT_SIZE`. -/
def indentStr (h : HState) : String :=
  pyStrMul h.indent_count "    "

/-- The `rotate` method: `l[n:] + l[:n]`. -/
def rotate (n : Nat) (l : List SymValue) : List SymValue :=
  l.drop n ++ l.take n

/-- The `pop` method (`self.stack.pop()`); popping an empty stack is the
Python `IndexError`. -/
def hpop (h : HState) : Except Err (SymValue × HState) :=
  match h.stack.getLast? with
  | Option.none => .error .stackUnderflow
  | some v => .ok (v, { h with stack := h.stack.dropLast })

/-- The `top` method (`self.stack[-1]`). -/
def htop (h : HState) : Except Err SymValue :=
  match h.stack.getLast? with
  | Option.none => .error .stackUnderflow
  | some v => .ok v

/-- The `push` method (`self.stack.append(val)`). -/
def hpush (v : SymValue) (h : HState) : HState :=
  { h with stack := h.stack ++ [v] }

/-- Replace the top of stack in place (`self.stack[-1] = v`, and the
mutations of `self.top().val`). -/
def hsetLast (v : SymValue) (h : HState) : HState :=
  { h with stack := h.stack.dropLast ++ [v] }

/-- Append one line to `self.result`. -/
def hemit (line : String) (h : HState) : HState :=
  { h with result := h.result ++ [line] }

/-- The `pop_n` method: `[self.pop() for _ in range(n)]` (list in pop
order, i.e. former top first). -/
def pop_n : Nat → HState → Except Err (List SymValue × HState)
  | 0, h => .ok ([], h)
  | n + 1, h => do
      let (v, h) ← hpop h
      let (vs, h) ← pop_n n h
      .ok (v :: vs, h)

/-- The `pop_n_rev` method: `pop_n` then `reverse()`. -/
def pop_n_rev (n : Nat) (h : HState) : Except Err (List SymValue × HState) := do
  let (vs, h) ← pop_n n h
  .ok (vs.reverse, h)

/-- The `pop_n_rev_rot` method: `rotate(shiftn, pop_n_rev(popn))`. -/
def pop_n_rev_rot (shiftn popn : Nat) (h : HState) :
    Except Err (List SymValue × HState) := do
  let (vs, h) ← pop_n_rev popn h
  .ok (rotate shiftn vs, h)

/-- The `read_kargs` method: `num` times pop a value then a key and
store `kargs[key] = val` into a dict (modelled as an insertion-ordered
association list, see `dictAssign`). -/
def read_kargs : Nat → List (SymValue × SymValue) → HState →
    Except Err (List (SymValue × SymValue) × HState)
  | 0, kargs, h => .ok (kargs, h)
  | n + 1, kargs, h => do
      let (val, h) ← hpop h
      let (key, h) ← hpop h
      read_kargs n (dictAssign kargs key val) h

/-- The `read_pargs` method: `num` times `pargs.insert(0, self.pop())`. -/
def read_pargs : Nat → List SymValue → HState →
    Except Err (List SymValue × HState)
  | 0, pargs, h => .ok (pargs, h)
  | n + 1, pargs, h => do
      let (v, h) ← hpop h
      read_pargs n (v :: pargs) h

/-- The `_make_list` method: pop `argc` entries and reverse them. -/
def make_list (argc : Nat) (h : HState) : Except Err (List SymValue × HState) := do
  let (l, h) ← pop_n argc h
  .ok (l.reverse, h)

/-- Assignment `self.stack[-n:] = self.rotate(n, self.stack[-n:])` used
by the ROT opcodes. -/
def rotTail (n : Nat) (h : HState) : HState :=
  let k := h.stack.length - n
  { h with stack := h.stack.take k ++ rotate n (h.stack.drop k) }

/-- Python `str()` of an opcode argument (`"{}".format(arg)` where
`arg` may be `None`). -/
def argStr : Option Value → String
  | Option.none => "None"
  | some v => pyStr v

/-- The Python object stored when an argument is put in an attribute
slot (`_PyObject(arg)`): `None` when absent. -/
def argValue : Option Value → Value
  | Option.none => .vnone
  | some v => v

/-- Python truthiness of an opcode argument (`if arg:`). -/
def argTruthy : Option Value → Bool
  | Option.none => false
  | some v => valueTruthy v

/-- Use of an opcode argument as a Python int (`arg & 0xff`,
`argc - kwargc`, `range(argc)`); a non-int argument raises TypeError
(a bool is an int in Python). -/
def argInt : Option Value → Except Err Int
  | some (.vint n) => .ok n
  | some (.vbool b) => .ok (if b then 1 else 0)
  | _ => .error .typeError

/-- Mutation `self.top().val = pre + self.top().val` of the unary
opcodes: requires the top entry to have a string `val` attribute
(`_PyObject` with a string value, or `_FuncCall`). -/
def unaryMutate (pre : String) (h : HState) : Except Err HState := do
  let t ← htop h
  match t with
  | .pyObject (.vstr s) raw sk => .ok (hsetLast (.pyObject (.vstr (pre ++ s)) raw sk) h)
  | .pyObject _ _ _ => .error .typeError        -- str + non-str concatenation
  | .funcCall s => .ok (hsetLast (.funcCall (pre ++ s)) h)
  | _ => .error .attributeError                 -- object has no attribute val

/-- The `__repr__` of `_Assigment(name, val)` (note `indent` defaults
to 0 at the single construction site): `indent * _INDENT` followed by
`"name = val"` with both parts already passed through `str`. -/
def assigmentRepr (indentn : Int) (name val : String) : String :=
  pyStrMul indentn "    " ++ (name ++ " = " ++ val)

/-- Python slice index clamping for `l[s:e]`. -/
def pyIdx (len : Nat) (i : Int) : Nat :=
  if i < 0 then ((len : Int) + i).toNat else min i.toNat len

/-- Python list slice `l[s:e]` (clamping, negative indices count from
the end). -/
def pySliceList {α : Type} (l : List α) (s e : Int) : List α :=
  (l.take (pyIdx l.length e)).drop (pyIdx l.length s)

/-- Iteration/slicing of a `co_varnames`-like value: tuples and lists
yield their elements, a plain string yields its characters (each a
1-character string, as Python iteration does); other values raise
TypeError. -/
def pySeqValues : Value → Except Err (List Value)
  | .vtuple xs => .ok xs
  | .vlist xs => .ok xs
  | .vstr s => .ok (s.data.map (fun c => .vstr (String.singleton c)))
  | _ => .error .typeError

/-- `", ".join(args)`: every element must be a Python string, else
TypeError. -/
def joinVstrs : List Value → Except Err (List String)
  | [] => .ok []
  | .vstr s :: xs => do
      let rest ← joinVstrs xs
      .ok (s :: rest)
  | _ :: _ => .error .typeError

/-- The keyword-argument rendering inside `_FuncCall.__init__`:
`k.val + "=" + str(v)` for each entry; the key must expose a string
`val` attribute. -/
def kargEntries : List (SymValue × SymValue) → Except Err (List String)
  | [] => .ok []
  | (k, v) :: ps => do
      let ks ← (match k with
        | .pyObject (.vstr s) _ _ => Except.ok s
        | .pyObject _ _ _ => Except.error Err.typeError
        | .funcCall s => Except.ok s
        | _ => Except.error Err.attributeError)
      let rest ← kargEntries ps
      .ok ((ks ++ "=" ++ symStr v) :: rest)

/-- The `_CommandHandler.handle` method: symbolically execute one
decoded instruction against the handler state.  The branch structure,
branch order, pop orders and emitted text mirror the source chain of
`elif` branches line by line (the diagnostic `print` at the head of the
method writes to stdout only and is not part of the state). -/
def handle (opcode : Op) (arg : Option Value) (h : HState) : Except Err HState :=
  if opcode = Op.NOP then .ok h
  else if opcode = Op.POP_TOP then do
    let (_, h) ← hpop h
    .ok h
  else if opcode = Op.ROT_TWO then .ok (rotTail 2 h)
  else if opcode = Op.ROT_THREE then .ok (rotTail 3 h)
  else if opcode = Op.ROT_FOUR then .ok (rotTail 4 h)
  else if opcode = Op.UNARY_POSITIVE then .ok h
  else if opcode = Op.UNARY_NEGATIVE then unaryMutate "-" h
  else if opcode = Op.UNARY_NOT then unaryMutate "not " h
  else if opcode = Op.UNARY_INVERT then unaryMutate "~" h
  else if opcode = Op.LOAD_CONST then .ok (hpush (.pyObject (argValue arg) false false) h)
  else if opcode = Op.LOAD_NAME then .ok (hpush (.pyObject (argValue arg) true false) h)
  else if opcode = Op.BUILD_LIST then do
    let n ← argInt arg
    let (l, h) ← make_list n.toNat h
    .ok (hpush (.list l) h)
  else if opcode = Op.BUILD_SET then do
    let n ← argInt arg
    let (l, h) ← make_list n.toNat h
    .ok (hpush (.set l) h)
  else if opcode = Op.BUILD_TUPLE then do
    let n ← argInt arg
    let (l, h) ← make_list n.toNat h
    .ok (hpush (.tuple l) h)
  else if opcode = Op.BUILD_MAP then .ok (hpush (.dict []) h)
  else if opcode = Op.STORE_MAP then do
    let (key, h) ← hpop h
    let (value, h) ← hpop h
    match h.stack.getLast? with
    | Option.none => .error .stackUnderflow          -- self.stack[-1] on empty stack
    | some (.dict ps) => .ok (hsetLast (.dict (dictAssign ps key value)) h)
    | some _ => .error .typeError                    -- item assignment on a non-dict
  else if opcode ∈ math_operations then do
    let (val2, h) ← hpop h
    let (val1, h) ← hpop h
    let cmd? :=
      if opcode ∈ pwr_operations then some "**"
      else if opcode ∈ mul_operations then some "*"
      else if opcode ∈ floor_div_operations then some "//"
      else if opcode ∈ true_div_operations then some "/"
      else if opcode ∈ mod_operations then some "%"
      else if opcode ∈ add_operations then some "+"
      else if opcode ∈ sub_operations then some "-"
      else if opcode ∈ shl_operations then some "<<"
      else if opcode ∈ shr_operations then some ">>"
      else if opcode ∈ and_operations then some "&"
      else if opcode ∈ xor_operations then some "^"
      else if opcode ∈ or_operations then some "|"
      else Option.none
    match cmd? with
    | Option.none => .error .nameError               -- local cmd would be unbound
    | some cmd => .ok (hpush (.mathOp val1 val2 cmd) h)
  else if opcode ∈ slice_expression then do
    let (val, h) ←
      if opcode = Op.SLICE_0 then do
        let (t1, h) ← hpop h                          -- pop_n_rev(1) = [t1]
        Except.ok (symStr t1 ++ "[:]", h)
      else if opcode = Op.SLICE_1 then do
        let (t1, h) ← hpop h                          -- pop_n_rev(2) = [t2, t1]
        let (t2, h) ← hpop h
        Except.ok (symStr t2 ++ "[" ++ symStr t1 ++ ":]", h)
      else if opcode = Op.SLICE_2 then do
        let (t1, h) ← hpop h
        let (t2, h) ← hpop h
        Except.ok (symStr t2 ++ "[:" ++ symStr t1 ++ "]", h)
      else if opcode = Op.SLICE_3 then do
        let (t1, h) ← hpop h                          -- pop_n_rev(3) = [t3, t2, t1]
        let (t2, h) ← hpop h
        let (t3, h) ← hpop h
        Except.ok (symStr t3 ++ "[" ++ symStr t2 ++ ":" ++ symStr t1 ++ "]", h)
      else Except.error Err.nameError                 -- local val would be unbound
    .ok (hpush (.pyObject (.vstr val) true false) h)
  else if opcode ∈ slice_statemant then do
    let (var, h) ←
      if opcode = Op.STORE_SLICE_0 then do
        let (t1, h) ← hpop h                          -- pop_n(2) = [t1, t2]
        let (t2, h) ← hpop h
        Except.ok (symStr t1 ++ "[:] = " ++ symStr t2, h)
      else if opcode = Op.STORE_SLICE_1 then do
        let (t1, h) ← hpop h                          -- pop_n_rev_rot(1, 3) = [t2, t1, t3]
        let (t2, h) ← hpop h
        let (t3, h) ← hpop h
        Except.ok (symStr t2 ++ "[" ++ symStr t1 ++ ":] = " ++ symStr t3, h)
      else if opcode = Op.STORE_SLICE_2 then do
        let (t1, h) ← hpop h
        let (t2, h) ← hpop h
        let (t3, h) ← hpop h
        Except.ok (symStr t2 ++ "[:" ++ symStr t1 ++ "] = " ++ symStr t3, h)
      else if opcode = Op.STORE_SLICE_3 then do
        let (t1, h) ← hpop h                          -- pop_n_rev_rot(1, 4) = [t3, t2, t1, t4]
        let (t2, h) ← hpop h
        let (t3, h) ← hpop h
        let (t4, h) ← hpop h
        Except.ok (symStr t3 ++ "[" ++ symStr t2 ++ ":" ++ symStr t1 ++ "] = " ++ symStr t4, h)
      else if opcode = Op.DELETE_SLICE_0 then do
        let (t1, h) ← hpop h
        Except.ok ("del " ++ symStr t1 ++ "[:]", h)
      else if opcode = Op.DELETE_SLICE_1 then do
        let (t1, h) ← hpop h                          -- pop_n_rev(2) = [t2, t1]
        let (t2, h) ← hpop h
        Except.ok ("del " ++ symStr t2 ++ "[" ++ symStr t1 ++ ":]", h)
      else if opcode = Op.DELETE_SLICE_2 then do
        let (t1, h) ← hpop h                          -- source repeats the upper-bound-less text
        let (t2, h) ← hpop h
        Except.ok ("del " ++ symStr t2 ++ "[" ++ symStr t1 ++ ":]", h)
      else if opcode = Op.DELETE_SLICE_3 then do
        let (t1, h) ← hpop h                          -- pop_n_rev(3) = [t3, t2, t1]
        let (t2, h) ← hpop h
        let (t3, h) ← hpop h
        Except.ok ("del " ++ symStr t3 ++ "[" ++ symStr t2 ++ ":" ++ symStr t1 ++ "]", h)
      else if opcode = Op.DELETE_SUBSCR then
        Except.error Err.nameError                    -- source calls the unbound name pop_n_rev
      else if opcode = Op.STORE_SUBSCR then do
        let (t1, h) ← hpop h                          -- pop_n_rev_rot(1, 3) = [t2, t1, t3]
        let (t2, h) ← hpop h
        let (t3, h) ← hpop h
        Except.ok (symStr t2 ++ "[" ++ symStr t1 ++ "] = " ++ symStr t3, h)
      else Except.error Err.nameError                 -- local var would be unbound
    .ok (hemit (indentStr h ++ var) h)
  else if opcode = Op.BINARY_SUBSCR then do
    let (tos, h) ← hpop h
    let (tos1, h) ← hpop h
    .ok (hpush (.ofValue (.vstr (symStr tos1 ++ "[" ++ symStr tos ++ "]"))) h)
  else if opcode = Op.IMPORT_NAME then do
    let (_, h) ← hpop h
    .ok (hpush (.ofValue (argValue arg)) h)
  else if opcode = Op.IMPORT_STAR then do
    let (m, h) ← hpop h
    .ok (hemit (indentStr h ++ "from " ++ symStr m ++ " import *") h)
  else if opcode = Op.IMPORT_FROM then do
    let t ← htop h
    .ok (hpush (.ofValue (.vstr (symStr t ++ "." ++ argStr arg))) h)
  else if opcode = Op.PRINT_ITEM_TO then do
    let t ← htop h                                    -- format evaluates self.top() first,
    let (_, h) ← hpop h                               -- then self.pop(): the same entry twice
    .ok (hemit (indentStr h ++ "print >> " ++ symStr t ++ ", " ++ symStr t) h)
  else if opcode = Op.PRINT_NEWLINE_TO then do
    let (v, h) ← hpop h
    .ok (hemit (indentStr h ++ "print >> " ++ symStr v) h)
  else if opcode = Op.PRINT_ITEM then do
    let (v, h) ← hpop h
    .ok (hemit (indentStr h ++ "print(" ++ symStr v ++ ", end=\x27\x27)") h)
  else if opcode = Op.PRINT_NEWLINE then
    .ok (hemit (indentStr h ++ "print()") h)
  else if opcode ∈ function_call then do
    let n ← argInt arg
    let pargc := (Int.land n 255).toNat               -- arg & 0xff
    let kargc := (Int.land (Int.shiftRight n 8) 255).toNat  -- (arg >> 8) & 0xff
    let (ext_list, ext_dict, h) ←
      if opcode = Op.CALL_FUNCTION then
        Except.ok ((Option.none : Option SymValue), (Option.none : Option SymValue), h)
      else if opcode = Op.CALL_FUNCTION_VAR then do
        let (el, h) ← hpop h
        Except.ok (some el, Option.none, h)
      else if opcode = Op.CALL_FUNCTION_KW then do
        let (ed, h) ← hpop h
        Except.ok (Option.none, some ed, h)
      else do                                         -- CALL_FUNCTION_VAR_KW
        let (ed, h) ← hpop h
        let (el, h) ← hpop h
        Except.ok (some el, some ed, h)
    let (kargs, h) ← read_kargs kargc [] h
    let (pargs, h) ← read_pargs pargc [] h
    let (fobj, h) ← hpop h
    let func_name := symRepr fobj
    let all1 := pargs.map symRepr
    let all2 := match ext_list with
      | some e => if symTruthy e then all1 ++ ["*" ++ symRepr e] else all1
      | Option.none => all1
    let kentries ← kargEntries kargs
    let all3 := all2 ++ kentries
    let all4 := match ext_dict with
      | some e => if symTruthy e then all3 ++ ["**" ++ symRepr e] else all3
      | Option.none => all3
    let val := func_name ++ "(" ++ String.intercalate ", " all4 ++ ")"
    .ok (hpush (.funcCall val) h)
  else if opcode = Op.MAKE_FUNCTION then do
    let (tos, h) ← hpop h
    let cval ← (match tos with
      | .pyObject v _ _ => Except.ok v
      | .funcCall s => Except.ok (Value.vstr s)       -- _FuncCall.val is its rendered text
      | _ => Except.error Err.attributeError)         -- object has no attribute val
    match cval with
    | .vcode argc _ _ _ _ _ _ _ varnames _ _ _ nameV _ _ _ => do
        let kwargc ← argInt arg
        let seq ← pySeqValues varnames
        let all1 := pySliceList seq 0 (argc - kwargc)             -- local_vars[:argc-kwargc]
        let keys := pySliceList seq (argc - kwargc) argc          -- local_vars[argc-kwargc:argc]
        let (dvals, h) ← pop_n_rev 2 h                            -- always pops exactly two
        let entries := (keys.zip dvals).map
          (fun kv => Value.vstr (pyStr kv.1 ++ "=" ++ symStr kv.2))
        let strs ← joinVstrs (all1 ++ entries)
        let line := indentStr h ++ "def " ++ pyStr nameV ++ "(" ++
          String.intercalate ", " strs ++ "):"
        .ok (hpush (.pyObject (.vint 0) false true) (hemit line h))  -- _PyObject(skip_it=1)
    | _ => .error .attributeError                     -- no co_name on a non-code object
  else if opcode = Op.RETURN_VALUE then
    let h := if argTruthy arg then hemit (indentStr h ++ "return " ++ argStr arg) h else h
    .ok { h with indent_count := h.indent_count - 1 }
  else if opcode = Op.DELETE_NAME then
    .ok (hemit (indentStr h ++ "del " ++ argStr arg) h)
  else if opcode = Op.STORE_NAME then do
    let (tos, h) ← hpop h
    match tos with
    | .pyObject _ _ sk =>                             -- hasattr(tos, "skip_it") holds
        if !sk then
          .ok (hemit (indentStr h ++ assigmentRepr 0 (argStr arg) (symStr tos)) h)
        else .ok h
    | _ => .ok h                                      -- hasattr is False: nothing emitted
  else .ok h                                          -- opcodes the handler does not treat

/-- Run `handle` over a sequence of already-resolved instructions. -/
def handleSeq : List (Op × Option Value) → HState → Except Err HState
  | [], h => .ok h
  | (o, a) :: rest, h => do
      let h ← handle o a h
      handleSeq rest h

/-- The initial handler state built by `_CommandHandler.__init__`. -/
def initHState : HState := { stack := [], result := [], indent_count := 0 }

/-- Modelled from the spec: the opcode-table collaborator
(`unwind/op.py`, imported as `op`) is absent from `src/`.  Per spec
section 6 the deserializer consumes from it `symbolic_name_for(byte,
magic)` (here `from_bytecode`), `has_argument(symbolic_name)` and
`has_kwonlyargcount_field(magic)`; a value of this structure
represents that interface, already resolved at the magic number of the
module being decoded. -/
structure OpTable where
  from_bytecode : Nat → Option Op
  has_argument : Op → Bool
  has_kwonlyargcount : Bool

/-- Python `len()` of a deserialized value, as applied to the
`co_consts`/`co_names`/`co_varnames` tables.  The length of a unicode
string would require UTF-8 decoding and is left unmodelled; no claim
reaches it. -/
def pyLen : Value → Except Err Nat
  | .vtuple xs => .ok xs.length
  | .vlist xs => .ok xs.length
  | .vset xs => .ok xs.length
  | .vfrozenset xs => .ok xs.length
  | .vstr s => .ok s.length
  | .vunicode _ => .error .notModelled
  | _ => .error .typeError        -- object has no len()

/-- Python subscription `v[i]` for a non-negative index, as applied to
the constant/name tables (a set is unsubscriptable; a string yields a
1-character string). -/
def pyGetItem : Value → Nat → Except Err Value
  | .vtuple xs, i => if i < xs.length then .ok (xs.getD i .vnone) else .error .indexError
  | .vlist xs, i => if i < xs.length then .ok (xs.getD i .vnone) else .error .indexError
  | .vstr s, i =>
      if i < s.length then .ok (.vstr (String.singleton (s.data.getD i (Char.ofNat 0))))
      else .error .indexError
  | _, _ => .error .typeError

/-- The opcodes whose argument resolves through `co_names` (the second
membership list at the argument-resolution site of
`unmarshal_node`). -/
def name_index_opcodes : List Op :=
  [.LOAD_NAME, .STORE_NAME, .DELETE_NAME,
   .LOAD_ATTR, .STORE_ATTR, .DELETE_ATTR,
   .LOAD_GLOBAL, .STORE_GLOBAL, .DELETE_GLOBAL,
   .IMPORT_NAME, .IMPORT_FROM]

/-- The opcodes whose argument resolves through `co_varnames` (the
third membership list at the argument-resolution site). -/
def local_index_opcodes : List Op := [.LOAD_FAST, .STORE_FAST, .DELETE_FAST]

/-- Argument resolution, lines 594-612 of the source: a `LOAD_CONST`
argument indexes `co_consts`, name-class arguments index `co_names`,
local-class arguments index `co_varnames` -- each bounds-checked
against the table length with `argument >= len(table)` raising the
out-of-range `DisassemblerException` -- and every other argument stays
the raw accumulated integer.  Argument-less opcodes keep `arg = None`. -/
def resolveArg (tbl : OpTable) (consts names varnames : Value) (opcode : Op)
    (argument : Nat) : Except Err (Option Value) :=
  if tbl.has_argument opcode then
    if opcode = Op.LOAD_CONST then do
      let n ← pyLen consts
      if argument ≥ n then .error (.invalidArgument argument)
      else do
        let v ← pyGetItem consts argument
        .ok (some v)
    else if opcode ∈ name_index_opcodes then do
      let n ← pyLen names
      if argument ≥ n then .error (.invalidArgument argument)
      else do
        let v ← pyGetItem names argument
        .ok (some v)
    else if opcode ∈ local_index_opcodes then do
      let n ← pyLen varnames
      if argument ≥ n then .error (.invalidArgument argument)
      else do
        let v ← pyGetItem varnames argument
        .ok (some v)
    else .ok (some (.vint argument))
  else .ok Option.none

/-- The bytecode decode loop of the `_TYPE_CODE` branch (source lines
572-617): read an opcode byte, look it up, read a 2-byte little-endian
operand for argument-bearing opcodes and OR it into the accumulator,
left-shift the accumulator by 16 and continue without emitting on
`EXTENDED_ARG`, otherwise resolve the argument, record the `Opc` and
feed it to the handler, then reset the accumulator to zero.  `i` is the
current byte offset, `argument` the accumulator, `acc` the `co.opcodes`
list built so far. -/
def disasmSteps (tbl : OpTable) (consts names varnames : Value) :
    List Nat → Nat → Nat → HState → List Opc → Except Err (List Opc × HState)
  | [], _, _, h, acc => .ok (acc, h)
  | b :: rest, i, argument, h, acc =>
    match tbl.from_bytecode b with
    | Option.none => .error (.unknownBytecode b)
    | some opcode =>
      if tbl.has_argument opcode then
        match rest with
        | lo :: hi :: rest2 =>
          let argument := argument ||| (lo ||| (hi <<< 8))
          if opcode = Op.EXTENDED_ARG then
            disasmSteps tbl consts names varnames rest2 (i + 3) (argument <<< 16) h acc
          else do
            let arg ← resolveArg tbl consts names varnames opcode argument
            let h ← handle opcode arg h
            disasmSteps tbl consts names varnames rest2 (i + 3) 0 h (acc ++ [.mk i 3 opcode arg])
        | _ => .error .truncatedArgument    -- co.co_code[i:i+2] unpacks short
      else
        if opcode = Op.EXTENDED_ARG then
          disasmSteps tbl consts names varnames rest (i + 1) (argument <<< 16) h acc
        else do
          let h ← handle opcode Option.none h
          disasmSteps tbl consts names varnames rest (i + 1) 0 h (acc ++ [.mk i 1 opcode Option.none])

/-- Deserializer state: the remaining input bytes (the open file from
its current position) and the string table of the current
deserialization pass. -/
structure RState where
  bytes : List Nat
  string_table : List String

/-- `self.file.read(n)` followed by a `struct.unpack` of exactly `n`
bytes: a short read makes `unpack` raise `struct.error`. -/
def readBytes (n : Nat) (st : RState) : Except Err (List Nat × RState) :=
  if st.bytes.length < n then .error .structError
  else .ok (st.bytes.take n, { st with bytes := st.bytes.drop n })

/-- Value of a little-endian byte sequence. -/
def leNat (bs : List Nat) : Nat :=
  bs.foldr (fun b acc => b + acc * 256) 0

/-- Two's-complement reading of a `w`-bit unsigned value. -/
def toSigned (w : Nat) (u : Nat) : Int :=
  if u < 2 ^ (w - 1) then (u : Int) else (u : Int) - 2 ^ w

/-- The `read_int8` method (`struct.unpack('=b', ...)`). -/
def read_int8 (st : RState) : Except Err (Int × RState) := do
  let (bs, st) ← readBytes 1 st
  .ok (toSigned 8 (leNat bs), st)

/-- The `read_int16` method (`struct.unpack('=h', ...)`, little-endian
signed). -/
def read_int16 (st : RState) : Except Err (Int × RState) := do
  let (bs, st) ← readBytes 2 st
  .ok (toSigned 16 (leNat bs), st)

/-- The `read_int32` method (`struct.unpack('=i', ...)`). -/
def read_int32 (st : RState) : Except Err (Int × RState) := do
  let (bs, st) ← readBytes 4 st
  .ok (toSigned 32 (leNat bs), st)

/-- The 8-byte signed read of the `_TYPE_INT64` branch
(`struct.unpack('=q', ...)`). -/
def read_int64 (st : RState) : Except Err (Int × RState) := do
  let (bs, st) ← readBytes 8 st
  .ok (toSigned 64 (leNat bs), st)

/-- The `read_byte_array` method: a 32-bit count, then
`struct.unpack('=' + 'B' * count, self.file.read(count))`.  For a
NEGATIVE count, `'B' * count` is the empty format string while
`file.read(count)` consumes the entire rest of the input, so `unpack`
raises `struct.error` unless the input was already exhausted. -/
def read_byte_array (st : RState) : Except Err (List Nat × RState) := do
  let (count, st) ← read_int32 st
  if count < 0 then
    if st.bytes.isEmpty then .ok ([], st) else .error .structError
  else readBytes count.toNat st

/-- The `read_string_ascii` method: each byte becomes one character. -/
def read_string_ascii (st : RState) : Except Err (String × RState) := do
  let (bs, st) ← read_byte_array st
  .ok (String.mk (bs.map Char.ofNat), st)

/-- The `read_string_utf8` method: a 32-bit count then
`self.file.read(count).decode('utf8')`.  `file.read` returns at most
the remaining bytes (all of them for a negative count) with no length
check; the UTF-8 decoding itself is not modelled, the raw bytes are
kept (`Value.vunicode`). -/
def read_string_utf8 (st : RState) : Except Err (List Nat × RState) := do
  let (count, st) ← read_int32 st
  let k := if count < 0 then st.bytes.length else min count.toNat st.bytes.length
  .ok (st.bytes.take k, { st with bytes := st.bytes.drop k })

/-- The digit loop of the `_TYPE_LONG` branch: `abs(nbits)` times read
a signed 16-bit digit and fold `n |= digit << (i * 15)` (a Python
left shift of an int by the non-negative `i * 15` is multiplication by
`2 ^ (i * 15)`). -/
def read_long_digits : Nat → Nat → Int → RState → Except Err (Int × RState)
  | 0, _, n, st => .ok (n, st)
  | k + 1, i, n, st => do
      let (digit, st) ← read_int16 st
      read_long_digits k (i + 1) (Int.lor n (digit * 2 ^ (i * 15))) st

/-- The marshal type tags (ASCII codes, as in the `_TYPE_*` module
constants). -/
def _TYPE_NULL : Int := 48

def _TYPE_NONE : Int := 78

def _TYPE_FALSE : Int := 70

def _TYPE_TRUE : Int := 84

def _TYPE_INT : Int := 105

def _TYPE_INT64 : Int := 73

def _TYPE_BINARY_FLOAT : Int := 103

def _TYPE_BINARY_COMPLEX : Int := 121

def _TYPE_LONG : Int := 108

def _TYPE_STRING : Int := 115

def _TYPE_INTERNED : Int := 116

def _TYPE_STRING_REF : Int := 82

def _TYPE_TUPLE : Int := 40

def _TYPE_LIST : Int := 91

def _TYPE_CODE : Int := 99

def _TYPE_UNICODE : Int := 117

def _TYPE_SET : Int := 60

def _TYPE_FROZEN_SET : Int := 62

mutual
/-- The `unmarshal_node` method: read one type tag and dispatch.  The
structure and branch order follow the source; tags the source does not
dispatch on (`0`, `S`, `.`, `i'` float text, `x`, `{`) fall to the
final unknown-type error exactly as there.  `fuel` bounds the recursion
depth (an embedding artifact: each recursive call consumes at least the
one tag byte, so any `fuel` larger than the input length is enough). -/
def unmarshal_node (tbl : OpTable) : Nat → RState → Except Err (Value × RState)
  | 0, _ => .error .outOfFuel
  | fuel + 1, st => do
    let (type0, st) ← read_int8 st
    if type0 = _TYPE_NONE then .ok (.vnone, st)
    else if type0 = _TYPE_TRUE then .ok (.vbool true, st)
    else if type0 = _TYPE_FALSE then .ok (.vbool false, st)
    else if type0 = _TYPE_TUPLE then unmarshal_collection tbl fuel .vtuple st
    else if type0 = _TYPE_LIST then unmarshal_collection tbl fuel .vlist st
    else if type0 = _TYPE_SET then unmarshal_collection tbl fuel .vset st
    else if type0 = _TYPE_FROZEN_SET then unmarshal_collection tbl fuel .vfrozenset st
    else if type0 = _TYPE_INT then do
      let (n, st) ← read_int32 st
      .ok (.vint n, st)
    else if type0 = _TYPE_INT64 then do
      let (n, st) ← read_int64 st
      .ok (.vint n, st)
    else if type0 = _TYPE_BINARY_FLOAT then do
      let (bs, st) ← readBytes 8 st
      .ok (.vfloat bs, st)
    else if type0 = _TYPE_BINARY_COMPLEX then do
      let (bs, st) ← readBytes 16 st
      .ok (.vcomplex bs, st)
    else if type0 = _TYPE_LONG then do
      let (nbits, st) ← read_int32 st
      if nbits = 0 then .ok (.vint 0, st)
      else do
        let (n, st) ← read_long_digits nbits.natAbs 0 0 st
        .ok (.vint (if nbits > 0 then n else -n), st)
    else if type0 = _TYPE_STRING then do
      let (s, st) ← read_string_ascii st
      .ok (.vstr s, st)
    else if type0 = _TYPE_UNICODE then do
      let (bs, st) ← read_string_utf8 st
      .ok (.vunicode bs, st)
    else if type0 = _TYPE_INTERNED then do
      let (data, st) ← read_string_ascii st
      .ok (.vstr data, { st with string_table := st.string_table ++ [data] })
    else if type0 = _TYPE_STRING_REF then do
      let (index, st) ← read_int32 st
      if index < 0 ∨ (st.string_table.length : Int) ≤ index then
        .error (.malformedStringRef index)
      else .ok (.vstr (st.string_table.getD index.toNat ""), st)
    else if type0 = _TYPE_CODE then do
      let (co_argcount, st) ← read_int32 st
      let (co_kwonlyargcount, st) ←
        if tbl.has_kwonlyargcount then read_int32 st else Except.ok ((0 : Int), st)
      let (co_nlocals, st) ← read_int32 st
      let (co_stacksize, st) ← read_int32 st
      let (co_flags, st) ← read_int32 st
      let (type2, st) ← read_int8 st
      if type2 ≠ _TYPE_STRING then .error (.badCodeString type2)
      else do
        let (co_code, st) ← read_byte_array st
        let (co_consts, st) ← unmarshal_node tbl fuel st
        let (co_names, st) ← unmarshal_node tbl fuel st
        let (co_varnames, st) ← unmarshal_node tbl fuel st
        let (co_freevars, st) ← unmarshal_node tbl fuel st
        let (co_cellvars, st) ← unmarshal_node tbl fuel st
        let (co_filename, st) ← unmarshal_node tbl fuel st
        let (co_name, st) ← unmarshal_node tbl fuel st
        let (co_firstlineno, st) ← read_int32 st
        let (co_lnotab, st) ← unmarshal_node tbl fuel st
        -- the decode loop runs on a fresh _CommandHandler; its result
        -- lines are only printed (print_result), not returned
        let (opcodes, _) ←
          disasmSteps tbl co_consts co_names co_varnames co_code 0 0 initHState []
        .ok (.vcode co_argcount co_kwonlyargcount co_nlocals co_stacksize co_flags
              co_code co_consts co_names co_varnames co_freevars co_cellvars
              co_filename co_name co_firstlineno co_lnotab opcodes, st)
    else .error (.unknownType type0)
termination_by fuel _ => (fuel, 0, 0)

/-- The `unmarshal_collection` method: a 32-bit element count, that
many recursively decoded nodes (`range(count)` of a negative count is
empty), wrapped by the collection constructor passed in. -/
def unmarshal_collection (tbl : OpTable) (fuel : Nat) (wrap : List Value → Value)
    (st : RState) : Except Err (Value × RState) := do
  let (count, st) ← read_int32 st
  let (nodes, st) ← unmarshal_list tbl fuel count.toNat st
  .ok (wrap nodes, st)
termination_by (fuel, 2, 0)

/-- The element loop of `unmarshal_collection`. -/
def unmarshal_list (tbl : OpTable) : Nat → Nat → RState → Except Err (List Value × RState)
  | _, 0, st => .ok ([], st)
  | fuel, k + 1, st => do
      let (v, st) ← unmarshal_node tbl fuel st
      let (vs, st) ← unmarshal_list tbl fuel k st
      .ok (v :: vs, st)
termination_by fuel k _ => (fuel, 1, k)
end

/-- Bind reduction for `Except` do-chains. -/
@[simp] theorem exceptBindOk {α β : Type} (a : α) (f : α → Except Err β) :
    (Except.ok a : Except Err α) >>= f = f a := rfl

/-- Error propagation for `Except` do-chains. -/
@[simp] theorem exceptBindError {α β : Type} (e : Err) (f : α → Except Err β) :
    (Except.error e : Except Err α) >>= f = .error e := rfl

/-- Disjoint bitwise or is addition: a value below `2 ^ k` ored with a
multiple of `2 ^ k`. -/
theorem or_mul_two_pow (k x y : Nat) (hy : y < 2 ^ k) :
    y ||| x * 2 ^ k = y + x * 2 ^ k := by
  induction k generalizing x y with
  | zero =>
    have : y = 0 := by omega
    subst this
    simp
  | succ k ih =>
    have hp : 2 ^ (k + 1) = 2 ^ k * 2 := pow_succ 2 k
    have hy' : y < 2 ^ k * 2 := hp ▸ hy
    have hy2 : y / 2 < 2 ^ k := by omega
    have hxb : x * 2 ^ (k + 1) = Nat.bit false (x * 2 ^ k) := by
      simp [Nat.bit, hp]
      ring
    conv_lhs => rw [← Nat.bit_decomp y, hxb, Nat.lor_bit]
    rw [Bool.or_false, Nat.div2_val, ih x (y / 2) hy2]
    have hmod := Nat.mod_two_of_bodd y
    cases hb : Nat.bodd y <;>
      simp only [hb, Bool.toNat_true, Bool.toNat_false, Nat.bit, cond] at hmod ⊢ <;>
      rw [hp] <;> ring_nf <;> omega

/-- Little-endian 2-byte encoding of a 16-bit value. -/
def le2 (u : Nat) : List Nat := [u % 256, u / 256 % 256]

/-- Little-endian 4-byte encoding of a 32-bit value. -/
def le4 (u : Nat) : List Nat :=
  [u % 256, u / 256 % 256, u / 2 ^ 16 % 256, u / 2 ^ 24 % 256]

/-- Two's-complement little-endian 32-bit encoding of an integer in
`[-2^31, 2^31)`. -/
def encode_int32 (c : Int) : List Nat := le4 (c % 2 ^ 32).toNat

/-- Reading exactly the prefix `l` leaves `rest`. -/
theorem readBytes_append (l rest : List Nat) (stbl : List String) :
    readBytes l.length ⟨l ++ rest, stbl⟩ = .ok (l, ⟨rest, stbl⟩) := by
  simp [readBytes, List.take_left, List.drop_left]

/-- A type-tag byte (every tag is below 128) reads back as itself. -/
theorem read_int8_byte (b : Nat) (hb : b < 128) (rest : List Nat) (stbl : List String) :
    read_int8 ⟨b :: rest, stbl⟩ = .ok ((b : Int), ⟨rest, stbl⟩) := by
  have h1 : readBytes 1 ⟨b :: rest, stbl⟩ = .ok ([b], ⟨rest, stbl⟩) :=
    readBytes_append [b] rest stbl
  simp [read_int8, h1, leNat, toSigned, hb]

/-- A 15-bit digit encodes and reads back as itself through the signed
16-bit read. -/
theorem read_int16_le2 (d : Nat) (hd : d < 32768) (rest : List Nat) (stbl : List String) :
    read_int16 ⟨le2 d ++ rest, stbl⟩ = .ok ((d : Int), ⟨rest, stbl⟩) := by
  have h1 : readBytes 2 ⟨le2 d ++ rest, stbl⟩ = .ok (le2 d, ⟨rest, stbl⟩) :=
    readBytes_append (le2 d) rest stbl
  have h2 : leNat (le2 d) = d := by
    simp [le2, leNat]
    omega
  simp [read_int16, h1, h2, toSigned, hd]

/-- An integer in `[-2^31, 2^31)` encodes and reads back as itself
through the signed 32-bit read. -/
theorem read_int32_encode (c : Int) (rest : List Nat) (stbl : List String)
    (h1 : -(2 ^ 31) ≤ c) (h2 : c < 2 ^ 31) :
    read_int32 ⟨encode_int32 c ++ rest, stbl⟩ = .ok (c, ⟨rest, stbl⟩) := by
  have hr : readBytes 4 ⟨encode_int32 c ++ rest, stbl⟩ = .ok (encode_int32 c, ⟨rest, stbl⟩) :=
    readBytes_append (encode_int32 c) rest stbl
  have hu : ((c % 2 ^ 32).toNat : Int) = c % 2 ^ 32 :=
    Int.toNat_of_nonneg (Int.emod_nonneg c (by norm_num))
  have hlt : (c % 2 ^ 32).toNat < 2 ^ 32 := by omega
  have hl : leNat (encode_int32 c) = (c % 2 ^ 32).toNat := by
    simp [encode_int32, le4, leNat]
    omega
  simp only [read_int32, hr, exceptBindOk, hl, toSigned]
  split <;> (refine congrArg (fun z => Except.ok (z, _)) ?_) <;> omega

/-- Worker for `natDigits15`, structurally recursive on a fuel bound
so that the encoder evaluates by kernel reduction. -/
def natDigits15go : Nat → Nat → List Nat
  | 0, _ => []
  | fuel + 1, m => if m = 0 then [] else m % 32768 :: natDigits15go fuel (m / 32768)

/-- Base-`2^15` digits of a natural number, least significant first
(the limb sequence the bignum encoding of the claim prescribes);
`m` itself bounds the number of limbs. -/
def natDigits15 (m : Nat) : List Nat := natDigits15go m m

/-- The fuel of `natDigits15go` is irrelevant once it covers `m`. -/
theorem natDigits15go_congr :
    ∀ f1 f2 m, m ≤ f1 → m ≤ f2 → natDigits15go f1 m = natDigits15go f2 m := by
  intro f1
  induction f1 with
  | zero =>
    intro f2 m h1 _
    have : m = 0 := by omega
    subst this
    cases f2 <;> simp [natDigits15go]
  | succ f1 ih =>
    intro f2 m h1 h2
    by_cases hm : m = 0
    · subst hm
      cases f2 <;> simp [natDigits15go]
    · have hf2 : f2 ≠ 0 := by omega
      obtain ⟨f2p, rfl⟩ := Nat.exists_eq_succ_of_ne_zero hf2
      simp only [natDigits15go, if_neg hm]
      have hlt : m / 32768 < m := Nat.div_lt_self (by omega) (by omega)
      rw [ih f2p (m / 32768) (by omega) (by omega)]

/-- Unfolding equation of `natDigits15` in the shape of the recursion. -/
theorem natDigits15_eq (m : Nat) :
    natDigits15 m = if m = 0 then [] else m % 32768 :: natDigits15 (m / 32768) := by
  by_cases hm : m = 0
  · subst hm; simp [natDigits15, natDigits15go]
  · obtain ⟨mp, hmp⟩ := Nat.exists_eq_succ_of_ne_zero hm
    rw [if_neg hm]
    conv_lhs => rw [natDigits15, hmp]
    show (if mp.succ = 0 then [] else mp.succ % 32768 :: natDigits15go mp (mp.succ / 32768))
      = m % 32768 :: natDigits15 (m / 32768)
    rw [if_neg (Nat.succ_ne_zero mp), ← hmp]
    have hle : m / 32768 ≤ mp := by
      have hlt : m / 32768 < m := Nat.div_lt_self (by omega) (by omega)
      omega
    rw [natDigits15go_congr mp (m / 32768) (m / 32768) hle (Nat.le_refl _)]
    rfl

/-- The byte stream of the base-`2^15` digit sequence of `m`, each limb
as 2 little-endian bytes. -/
def digitsBytes (m : Nat) : List Nat :=
  (natDigits15 m).foldr (fun d acc => le2 d ++ acc) []

/-- Unfolding equation of `digitsBytes` in the shape of the recursion. -/
theorem digitsBytes_eq (m : Nat) :
    digitsBytes m = if m = 0 then [] else le2 (m % 32768) ++ digitsBytes (m / 32768) := by
  by_cases hm : m = 0
  · subst hm; simp [digitsBytes, natDigits15, natDigits15go]
  · rw [if_neg hm]
    unfold digitsBytes
    rw [natDigits15_eq m, if_neg hm]
    rfl

/-- The bignum payload the claim prescribes for `n`: a signed 32-bit
limb count (negative for negative `n`, zero only for `n = 0`) followed
by the base-`2^15` digits of `|n|`. -/
def bignumPayload (n : Int) : List Nat :=
  encode_int32 (if n < 0 then -((natDigits15 n.natAbs).length : Int)
                else ((natDigits15 n.natAbs).length : Int)) ++ digitsBytes n.natAbs

/-- The digit loop of the `_TYPE_LONG` branch reassembles the digit
stream of `m`: starting from a partial accumulator confined to the
bits below position `i * 15`, it ors in each limb shifted into place
and ends with `acc + m <<< (i * 15)`. -/
theorem read_long_digits_spec (m : Nat) : ∀ (i a : Nat) (rest : List Nat) (stbl : List String),
    a < 2 ^ (i * 15) →
    read_long_digits (natDigits15 m).length i ((a : Int)) ⟨digitsBytes m ++ rest, stbl⟩
      = .ok (((a + m * 2 ^ (i * 15) : Nat) : Int), ⟨rest, stbl⟩) := by
  induction m using Nat.strong_induction_on with
  | _ m ih =>
    intro i a rest stbl ha
    by_cases hm : m = 0
    · subst hm
      rw [natDigits15_eq, digitsBytes_eq]
      simp [read_long_digits]
    · have hd : m % 32768 < 32768 := Nat.mod_lt m (by omega)
      have hdig : natDigits15 m = m % 32768 :: natDigits15 (m / 32768) := by
        rw [natDigits15_eq]; simp [hm]
      have hbytes : digitsBytes m = le2 (m % 32768) ++ digitsBytes (m / 32768) := by
        rw [digitsBytes_eq]; simp [hm]
      rw [hdig, hbytes, List.length_cons, List.append_assoc]
      rw [read_long_digits]
      rw [read_int16_le2 (m % 32768) hd _ stbl]
      simp only [exceptBindOk]
      have hcast : ((m % 32768 : Nat) : Int) * 2 ^ (i * 15)
          = ((m % 32768 * 2 ^ (i * 15) : Nat) : Int) := by push_cast; ring
      have hlor : Int.lor ((a : Int)) (((m % 32768 * 2 ^ (i * 15) : Nat) : Int))
          = ((a ||| m % 32768 * 2 ^ (i * 15) : Nat) : Int) := rfl
      have hor : a ||| m % 32768 * 2 ^ (i * 15) = a + m % 32768 * 2 ^ (i * 15) :=
        or_mul_two_pow (i * 15) (m % 32768) a ha
      have hlt : a + m % 32768 * 2 ^ (i * 15) < 2 ^ ((i + 1) * 15) := by
        have hpow : 2 ^ ((i + 1) * 15) = 2 ^ (i * 15) * 2 ^ 15 := by
          rw [← pow_add]; ring_nf
        calc a + m % 32768 * 2 ^ (i * 15)
            < 2 ^ (i * 15) + m % 32768 * 2 ^ (i * 15) := by omega
          _ = (1 + m % 32768) * 2 ^ (i * 15) := by ring
          _ ≤ 2 ^ 15 * 2 ^ (i * 15) := by
              refine Nat.mul_le_mul_right _ ?_
              omega
          _ = 2 ^ ((i + 1) * 15) := by rw [hpow]; ring
      rw [hcast, hlor, hor,
        ih (m / 32768) (Nat.div_lt_self (by omega) (by omega)) (i + 1)
          (a + m % 32768 * 2 ^ (i * 15)) rest stbl hlt]
      refine congrArg (fun z => Except.ok (((z : Nat) : Int), _)) ?_
      have hpow : 2 ^ ((i + 1) * 15) = 2 ^ (i * 15) * 2 ^ 15 := by
        rw [← pow_add]; ring_nf
      have hsplit := Nat.div_add_mod m 32768
      calc a + m % 32768 * 2 ^ (i * 15) + m / 32768 * 2 ^ ((i + 1) * 15)
          = a + (m % 32768 + m / 32768 * 2 ^ 15) * 2 ^ (i * 15) := by rw [hpow]; ring
        _ = a + m * 2 ^ (i * 15) := by
            have : m % 32768 + m / 32768 * 2 ^ 15 = m := by omega
            rw [this]

/-- C5: decoding the bignum encoding of `n` (signed 32-bit limb count,
then that many base-`2^15` digits, each contributing
`digit << (i * 15)`, the sign of the result being the sign of the limb
count and a zero limb count decoding to `0`) reproduces `n` exactly,
for every integer `n` whose limb count fits the signed 32-bit field. -/
theorem bignum_roundtrip (tbl : OpTable) (fuel : Nat) (n : Int)
    (rest : List Nat) (stbl : List String)
    (hlen : (natDigits15 n.natAbs).length < 2 ^ 31) :
    unmarshal_node tbl (fuel + 1) ⟨108 :: (bignumPayload n ++ rest), stbl⟩
      = .ok (.vint n, ⟨rest, stbl⟩) := by
  rw [unmarshal_node]
  rw [read_int8_byte 108 (by omega) _ stbl]
  simp only [exceptBindOk]
  norm_num [_TYPE_NONE, _TYPE_TRUE, _TYPE_FALSE, _TYPE_TUPLE, _TYPE_LIST, _TYPE_SET,
    _TYPE_FROZEN_SET, _TYPE_INT, _TYPE_INT64, _TYPE_BINARY_FLOAT, _TYPE_BINARY_COMPLEX,
    _TYPE_LONG]
  by_cases hn : n = 0
  · subst hn
    have hd0 : natDigits15 (Int.natAbs 0) = [] := by rw [natDigits15_eq]; simp
    have hb0 : digitsBytes (Int.natAbs 0) = [] := by rw [digitsBytes_eq]; simp
    simp only [bignumPayload, hd0, hb0, List.length_nil, Nat.cast_zero]
    norm_num
    rw [read_int32_encode 0 rest stbl (by norm_num) (by norm_num)]
    simp
  · have hm : n.natAbs ≠ 0 := Int.natAbs_ne_zero.mpr hn
    have hL1 : 1 ≤ (natDigits15 n.natAbs).length := by
      rw [natDigits15_eq]
      simp [hm]
    set L := (natDigits15 n.natAbs).length with hLdef
    have hdigits := read_long_digits_spec n.natAbs 0 0 rest stbl (by norm_num)
    rw [Nat.cast_zero] at hdigits
    simp only [Nat.zero_mul, pow_zero, Nat.mul_one, Nat.zero_add] at hdigits
    by_cases hneg : n < 0
    · have hcount : bignumPayload n = encode_int32 (-(L : Int)) ++ digitsBytes n.natAbs := by
        simp only [bignumPayload, if_pos hneg, hLdef]
      rw [hcount, List.append_assoc,
        read_int32_encode (-(L : Int)) _ stbl (by omega) (by omega)]
      simp only [exceptBindOk]
      have hc0 : ¬(-(L : Int) = 0) := by omega
      rw [if_neg hc0]
      have habs : (-(L : Int)).natAbs = L := by simp
      rw [habs, hdigits]
      simp only [exceptBindOk]
      have hle : ¬(-(L : Int) > 0) := by omega
      rw [if_neg hle]
      have : -((n.natAbs : Nat) : Int) = n := by omega
      rw [this]
    · have hpos : 0 < n := by omega
      have hcount : bignumPayload n = encode_int32 ((L : Int)) ++ digitsBytes n.natAbs := by
        simp only [bignumPayload, if_neg hneg, hLdef]
      rw [hcount, List.append_assoc,
        read_int32_encode ((L : Int)) _ stbl (by omega) (by omega)]
      simp only [exceptBindOk]
      have hc0 : ¬((L : Int) = 0) := by omega
      rw [if_neg hc0]
      have habs : ((L : Int)).natAbs = L := by simp
      rw [habs, hdigits]
      simp only [exceptBindOk]
      have hgt : ((L : Int) > 0) := by omega
      rw [if_pos hgt]
      have : ((n.natAbs : Nat) : Int) = n := by omega
      rw [this]

/-- The code object of the nested function `name(a, b=5)` used by the
function-definition scenario: `argcount = 2`, no keyword-only
arguments, `varnames = ("a", "b")`, `name = "name"` (flags 67 =
optimized | newlocals | nested-irrelevant bits; constants hold the
body's None). -/
def nestedCodeAB : Value :=
  .vcode 2 0 2 1 67 [] (.vtuple [.vnone]) (.vtuple []) (.vtuple [.vstr "a", .vstr "b"])
    (.vtuple []) (.vtuple []) (.vstr "test.py") (.vstr "name") 1 (.vstr "") []

/-- C1: the scenario "push name `f`; push constant 1; push constant 2;
call with 2 positional args; store into name `x`".  The call does
reconstruct the value `f(1, 2)` onto the stack (first conjunct), but
the subsequent store-name emits NOTHING: the handler appends an
assignment only when `hasattr(tos, "skip_it")` holds, and a `_FuncCall`
result carries no `skip_it` attribute, so the run ends with an empty
output list instead of the specified single line `x = f(1, 2)`. -/
theorem store_name_drops_call_assignment :
    handleSeq
      [(Op.LOAD_NAME, some (.vstr "f")),
       (Op.LOAD_CONST, some (.vint 1)),
       (Op.LOAD_CONST, some (.vint 2)),
       (Op.CALL_FUNCTION, some (.vint 2))] initHState
      = .ok { stack := [.funcCall "f(1, 2)"], result := [], indent_count := 0 }
  ∧ handleSeq
      [(Op.LOAD_NAME, some (.vstr "f")),
       (Op.LOAD_CONST, some (.vint 1)),
       (Op.LOAD_CONST, some (.vint 2)),
       (Op.CALL_FUNCTION, some (.vint 2)),
       (Op.STORE_NAME, some (.vstr "x"))] initHState
      = .ok { stack := [], result := [], indent_count := 0 } :=
  ⟨rfl, rfl⟩

/-- C2: the scenario "push constant 2; push constant 3; binary-add;
return".  The addition does build the symbolic value whose text is
`(2 + 3)` (second conjunct), but the return handler tests `if arg:` --
the INSTRUCTION argument, which is absent (`None`) for a return -- so
it emits NO `return` line; it only decrements the indent counter.  The
run therefore produces an empty output list, not the specified single
line `return (2 + 3)`. -/
theorem return_value_emits_no_line :
    handleSeq
      [(Op.LOAD_CONST, some (.vint 2)),
       (Op.LOAD_CONST, some (.vint 3)),
       (Op.BINARY_ADD, Option.none),
       (Op.RETURN_VALUE, Option.none)] initHState
      = .ok { stack := [.mathOp (.pyObject (.vint 2) false false)
                          (.pyObject (.vint 3) false false) "+"],
              result := [], indent_count := -1 }
  ∧ symRepr (.mathOp (.pyObject (.vint 2) false false)
               (.pyObject (.vint 3) false false) "+") = "(2 + 3)" :=
  ⟨rfl, rfl⟩

/-- C3: defining the nested code object of `name(a, b=5)` (one default
value `5` on the stack below the code object, `MAKE_FUNCTION` argument
1).  The handler pops TWO default operands unconditionally
(`pop_n_rev(2)`), so with the single default on the stack it underflows
and the whole pass aborts: no `def name(a, b=5):` line and no `Skip`
marker are produced.  The second conjunct shows the same handler on a
two-default encoding `(a=4, b=5)`, where the hardcoded double pop fits
and the header line is emitted with the assignment suppressed. -/
theorem make_function_one_default_underflows :
    handleSeq
      [(Op.LOAD_CONST, some (.vint 5)),
       (Op.LOAD_CONST, some nestedCodeAB),
       (Op.MAKE_FUNCTION, some (.vint 1))] initHState
      = .error .stackUnderflow
  ∧ handleSeq
      [(Op.LOAD_CONST, some (.vint 4)),
       (Op.LOAD_CONST, some (.vint 5)),
       (Op.LOAD_CONST, some nestedCodeAB),
       (Op.MAKE_FUNCTION, some (.vint 2)),
       (Op.STORE_NAME, some (.vstr "name"))] initHState
      = .ok { stack := [], result := ["def name(a=4, b=5):"], indent_count := 0 } :=
  ⟨rfl, rfl⟩

/-- Popping a concatenated top entry. -/
theorem hpop_concat (s : List SymValue) (v : SymValue) (r : List String) (ic : Int) :
    hpop ⟨s ++ [v], r, ic⟩ = .ok (v, ⟨s, r, ic⟩) := by
  simp [hpop, List.getLast?_concat, List.dropLast_concat]

/-- The `STORE_MAP` branch of `handle`, extracted. -/
theorem handle_store_map (a : Option Value) (hst : HState) :
    handle Op.STORE_MAP a hst = (do
      let (key, h) ← hpop hst
      let (value, h) ← hpop h
      match h.stack.getLast? with
      | Option.none => .error .stackUnderflow
      | some (.dict ps) => .ok (hsetLast (.dict (dictAssign ps key value)) h)
      | some _ => .error .typeError) := rfl

/-- C8 counterexample: with the mapping at the bottom, then the entry
`_PyObject(1)`, then `_PyObject(2)` on top, `STORE_MAP` pops `2` FIRST
AS THE KEY and `1` second as the value, inserting the pair `2: 1`.
The claim ("pops a value then a key") predicts the pair `1: 2`; the
second conjunct shows the code does not produce that state. -/
theorem store_map_pop_order_counterexample :
    handle Op.STORE_MAP Option.none
      { stack := [.dict [], .pyObject (.vint 1) false false, .pyObject (.vint 2) false false],
        result := [], indent_count := 0 }
      = .ok { stack := [.dict [(.pyObject (.vint 2) false false, .pyObject (.vint 1) false false)]],
              result := [], indent_count := 0 }
  ∧ handle Op.STORE_MAP Option.none
      { stack := [.dict [], .pyObject (.vint 1) false false, .pyObject (.vint 2) false false],
        result := [], indent_count := 0 }
      ≠ .ok { stack := [.dict [(.pyObject (.vint 1) false false, .pyObject (.vint 2) false false)]],
              result := [], indent_count := 0 } := by
  refine ⟨rfl, ?_⟩
  intro hcontra
  rw [show handle Op.STORE_MAP Option.none
      { stack := [.dict [], .pyObject (.vint 1) false false, .pyObject (.vint 2) false false],
        result := [], indent_count := 0 }
      = .ok { stack := [.dict [(.pyObject (.vint 2) false false, .pyObject (.vint 1) false false)]],
              result := [], indent_count := 0 } from rfl] at hcontra
  simp at hcontra

/-- C8 as amended: `BUILD_MAP` pushes an empty mutable mapping, and
`STORE_MAP` pops a KEY (the top entry) then a VALUE and inserts that
pair into the mapping then at the stack top, in place, leaving the
mapping on the stack. -/
theorem build_map_and_store_map (s : List SymValue) (m : List (SymValue × SymValue))
    (x y : SymValue) (r : List String) (ic : Int) (a a2 : Option Value) :
    handle Op.BUILD_MAP a ⟨s, r, ic⟩ = .ok ⟨s ++ [.dict []], r, ic⟩
  ∧ handle Op.STORE_MAP a2 ⟨s ++ [.dict m, x, y], r, ic⟩
      = .ok ⟨s ++ [.dict (dictAssign m y x)], r, ic⟩ := by
  refine ⟨rfl, ?_⟩
  have e0 : s ++ [SymValue.dict m, x, y] = ((s ++ [SymValue.dict m]) ++ [x]) ++ [y] := by simp
  rw [handle_store_map, e0]
  simp only [hpop_concat, exceptBindOk, List.getLast?_concat]
  simp [hsetLast, List.dropLast_concat]

/-- C9: the rotate-2/3/4 stack shuffles leave the operand stack exactly
unchanged whenever it holds enough entries: `rotate(n, l)` is
`l[n:] + l[:n]`, which is the identity on any slice of at most `n`
entries (last conjunct), and `self.stack[-n:]` has exactly `n` entries
here, so the slice assignment writes back what it read. -/
theorem rot_shuffles_are_identity (h : HState) (a : Option Value) :
    (2 ≤ h.stack.length → handle Op.ROT_TWO a h = .ok h)
  ∧ (3 ≤ h.stack.length → handle Op.ROT_THREE a h = .ok h)
  ∧ (4 ≤ h.stack.length → handle Op.ROT_FOUR a h = .ok h)
  ∧ (∀ (l : List SymValue) (n : Nat), l.length ≤ n → rotate n l = l) := by
  have hrot : ∀ (l : List SymValue) (n : Nat), l.length ≤ n → rotate n l = l := by
    intro l n hl
    unfold rotate
    rw [List.drop_eq_nil_of_le hl, List.take_of_length_le hl]
    simp
  have htail : ∀ n : Nat, rotTail n h = h := by
    intro n
    rw [show rotTail n h
        = { h with stack := h.stack.take (h.stack.length - n)
              ++ rotate n (h.stack.drop (h.stack.length - n)) } from rfl]
    rw [hrot (h.stack.drop (h.stack.length - n)) n (by rw [List.length_drop]; omega),
      List.take_append_drop]
  refine ⟨fun _ => ?_, fun _ => ?_, fun _ => ?_, hrot⟩
  · rw [show handle Op.ROT_TWO a h = .ok (rotTail 2 h) from rfl, htail 2]
  · rw [show handle Op.ROT_THREE a h = .ok (rotTail 3 h) from rfl, htail 3]
  · rw [show handle Op.ROT_FOUR a h = .ok (rotTail 4 h) from rfl, htail 4]

/-- Witness for C9 at a concrete 4-entry stack: all three shuffle
instructions leave it unchanged. -/
theorem rot_shuffles_are_identity_witness :
    (handle Op.ROT_TWO Option.none
      { stack := [.ofValue (.vint 1), .ofValue (.vint 2), .ofValue (.vint 3), .ofValue (.vint 4)],
        result := [], indent_count := 0 }
      = .ok { stack := [.ofValue (.vint 1), .ofValue (.vint 2), .ofValue (.vint 3), .ofValue (.vint 4)],
              result := [], indent_count := 0 })
  ∧ (handle Op.ROT_THREE Option.none
      { stack := [.ofValue (.vint 1), .ofValue (.vint 2), .ofValue (.vint 3), .ofValue (.vint 4)],
        result := [], indent_count := 0 }
      = .ok { stack := [.ofValue (.vint 1), .ofValue (.vint 2), .ofValue (.vint 3), .ofValue (.vint 4)],
              result := [], indent_count := 0 })
  ∧ (handle Op.ROT_FOUR Option.none
      { stack := [.ofValue (.vint 1), .ofValue (.vint 2), .ofValue (.vint 3), .ofValue (.vint 4)],
        result := [], indent_count := 0 }
      = .ok { stack := [.ofValue (.vint 1), .ofValue (.vint 2), .ofValue (.vint 3), .ofValue (.vint 4)],
              result := [], indent_count := 0 }) :=
  ⟨(rot_shuffles_are_identity _ Option.none).1 (by decide),
   (rot_shuffles_are_identity _ Option.none).2.1 (by decide),
   (rot_shuffles_are_identity _ Option.none).2.2.1 (by decide)⟩

/-- C4: an argument-bearing instruction (of raw argument class) whose
true argument `A` exceeds 65535 (and fits 32 bits), encoded as an
extend-argument pseudo-instruction carrying the high 16 bits followed
by the target instruction carrying the low 16 bits, decodes to exactly
the original argument `A`: the extend instruction left-shifts the
accumulator by 16 and emits nothing, the following operand is
or-combined, and the continuation runs with the accumulator reset to
zero after the single emitted instruction. -/
theorem extended_arg_folding
    (tbl : OpTable) (consts names varnames : Value)
    (eb ob : Nat) (o : Op) (A : Nat) (rest : List Nat) (i : Nat)
    (h h2 : HState) (acc : List Opc)
    (heb : tbl.from_bytecode eb = some Op.EXTENDED_ARG)
    (hextarg : tbl.has_argument Op.EXTENDED_ARG = true)
    (hob : tbl.from_bytecode ob = some o)
    (harg : tbl.has_argument o = true)
    (hne : o ≠ Op.EXTENDED_ARG)
    (hnc : o ≠ Op.LOAD_CONST)
    (hnn : o ∉ name_index_opcodes)
    (hnl : o ∉ local_index_opcodes)
    (_hbig : 65535 < A)
    (_hA2 : A < 2 ^ 32)
    (hhandle : handle o (some (.vint (A : Int))) h = .ok h2) :
    disasmSteps tbl consts names varnames
      (eb :: (A / 2 ^ 16 % 256) :: (A / 2 ^ 16 / 256) :: ob
        :: (A % 256) :: (A % 2 ^ 16 / 256) :: rest) i 0 h acc
      = disasmSteps tbl consts names varnames rest (i + 6) 0 h2
          (acc ++ [.mk (i + 3) 3 o (some (.vint (A : Int)))]) := by
  have harg1 : (0 : Nat) ||| (A / 2 ^ 16 % 256 ||| (A / 2 ^ 16 / 256) <<< 8) = A / 2 ^ 16 := by
    rw [Nat.zero_or, Nat.shiftLeft_eq,
      or_mul_two_pow 8 (A / 2 ^ 16 / 256) (A / 2 ^ 16 % 256) (by omega)]
    omega
  have hinner : A % 256 ||| (A % 2 ^ 16 / 256) <<< 8 = A % 2 ^ 16 := by
    rw [Nat.shiftLeft_eq, or_mul_two_pow 8 (A % 2 ^ 16 / 256) (A % 256) (by omega)]
    omega
  have harg2 : (A / 2 ^ 16) <<< 16 ||| (A % 256 ||| (A % 2 ^ 16 / 256) <<< 8) = A := by
    rw [hinner, Nat.shiftLeft_eq, Nat.or_comm,
      or_mul_two_pow 16 (A / 2 ^ 16) (A % 2 ^ 16) (by omega)]
    omega
  rw [disasmSteps, heb]
  simp only [hextarg, if_true]
  rw [harg1]
  rw [disasmSteps, hob]
  simp only [harg, if_true]
  rw [if_neg hne, harg2]
  have hres : resolveArg tbl consts names varnames o A = .ok (some (.vint (A : Int))) := by
    simp only [resolveArg, harg, if_true, if_neg hnc]
    rw [if_neg hnn, if_neg hnl]
  rw [hres, exceptBindOk, hhandle, exceptBindOk]

/-- A concrete opcode table used by the witnesses, mapping three bytes
as the CPython 2 table does. -/
def witnessTable : OpTable :=
  { from_bytecode := fun b =>
      if b = 100 then some Op.LOAD_CONST
      else if b = 131 then some Op.CALL_FUNCTION
      else if b = 143 then some Op.EXTENDED_ARG
      else Option.none,
    has_argument := fun o =>
      match o with
      | Op.LOAD_CONST => true
      | Op.CALL_FUNCTION => true
      | Op.EXTENDED_ARG => true
      | _ => false,
    has_kwonlyargcount := false }

/-- Witness for C4 at the argument `196608 = 3 * 2 ^ 16`: a call
instruction prefixed by the extend pseudo-instruction resolves to the
full 32-bit argument. -/
theorem extended_arg_folding_witness :
    65535 < 196608 ∧
    disasmSteps witnessTable (.vtuple []) (.vtuple []) (.vtuple [])
      (143 :: (196608 / 2 ^ 16 % 256) :: (196608 / 2 ^ 16 / 256) :: 131
        :: (196608 % 256) :: (196608 % 2 ^ 16 / 256) :: []) 0 0
      { stack := [.pyObject (.vstr "f") true false], result := [], indent_count := 0 } []
      = disasmSteps witnessTable (.vtuple []) (.vtuple []) (.vtuple []) [] (0 + 6) 0
          { stack := [.funcCall "f()"], result := [], indent_count := 0 }
          ([] ++ [.mk (0 + 3) 3 Op.CALL_FUNCTION (some (.vint (196608 : Int)))]) :=
  ⟨by decide,
   extended_arg_folding witnessTable (.vtuple []) (.vtuple []) (.vtuple []) 143 131
     Op.CALL_FUNCTION 196608 [] 0
     { stack := [.pyObject (.vstr "f") true false], result := [], indent_count := 0 }
     { stack := [.funcCall "f()"], result := [], indent_count := 0 } []
     rfl rfl rfl rfl (by decide) (by decide) (by decide) (by decide)
     (by decide) (by decide) rfl⟩

/-- C6: for every argument-bearing instruction whose argument class
indexes the `consts`, `names` or `varnames` table, a resolved argument
at or past the table length makes resolution (and hence decoding, last
conjunct) fail with the out-of-range error, and an in-range argument
resolves to the table entry at that index -- never wrapping or
truncating. -/
theorem operand_index_bounds
    (tbl : OpTable) (consts names varnames : List Value) (o : Op) (A : Nat)
    (harg : tbl.has_argument o = true) :
    ((o = Op.LOAD_CONST →
        (consts.length ≤ A →
          resolveArg tbl (.vtuple consts) (.vtuple names) (.vtuple varnames) o A
            = .error (.invalidArgument A))
      ∧ (A < consts.length →
          resolveArg tbl (.vtuple consts) (.vtuple names) (.vtuple varnames) o A
            = .ok (some (consts.getD A .vnone))))
  ∧ (o ∈ name_index_opcodes →
        (names.length ≤ A →
          resolveArg tbl (.vtuple consts) (.vtuple names) (.vtuple varnames) o A
            = .error (.invalidArgument A))
      ∧ (A < names.length →
          resolveArg tbl (.vtuple consts) (.vtuple names) (.vtuple varnames) o A
            = .ok (some (names.getD A .vnone))))
  ∧ (o ∈ local_index_opcodes →
        (varnames.length ≤ A →
          resolveArg tbl (.vtuple consts) (.vtuple names) (.vtuple varnames) o A
            = .error (.invalidArgument A))
      ∧ (A < varnames.length →
          resolveArg tbl (.vtuple consts) (.vtuple names) (.vtuple varnames) o A
            = .ok (some (varnames.getD A .vnone))))
  ∧ (∀ (b lo hi : Nat) (h : HState),
        tbl.from_bytecode b = some Op.LOAD_CONST →
        tbl.has_argument Op.LOAD_CONST = true →
        consts.length ≤ lo ||| hi <<< 8 →
        disasmSteps tbl (.vtuple consts) (.vtuple names) (.vtuple varnames) [b, lo, hi] 0 0 h []
          = .error (.invalidArgument (lo ||| hi <<< 8)))) := by
  refine ⟨?_, ?_, ?_, ?_⟩
  · rintro rfl
    refine ⟨fun hle => ?_, fun hlt => ?_⟩
    · simp only [resolveArg, harg, if_true, if_pos rfl, pyLen, exceptBindOk]
      rw [if_pos (by omega : A ≥ consts.length)]
    · simp only [resolveArg, harg, if_true, if_pos rfl, pyLen, exceptBindOk]
      rw [if_neg (by omega : ¬ A ≥ consts.length)]
      simp [pyGetItem, hlt]
  · intro hmem
    have hnc : o ≠ Op.LOAD_CONST := by
      rintro rfl
      exact absurd hmem (by decide)
    refine ⟨fun hle => ?_, fun hlt => ?_⟩
    · simp only [resolveArg, harg, if_true, if_neg hnc, if_pos hmem, pyLen, exceptBindOk]
      rw [if_pos (by omega : A ≥ names.length)]
    · simp only [resolveArg, harg, if_true, if_neg hnc, if_pos hmem, pyLen, exceptBindOk]
      rw [if_neg (by omega : ¬ A ≥ names.length)]
      simp [pyGetItem, hlt]
  · intro hmem
    have hnc : o ≠ Op.LOAD_CONST := by
      rintro rfl
      exact absurd hmem (by decide)
    have hnn : o ∉ name_index_opcodes := by
      simp only [local_index_opcodes, List.mem_cons, List.not_mem_nil, or_false,
        List.mem_singleton] at hmem
      rcases hmem with rfl | rfl | rfl <;> decide
    refine ⟨fun hle => ?_, fun hlt => ?_⟩
    · simp only [resolveArg, harg, if_true, if_neg hnc, if_neg hnn, if_pos hmem, pyLen,
        exceptBindOk]
      rw [if_pos (by omega : A ≥ varnames.length)]
    · simp only [resolveArg, harg, if_true, if_neg hnc, if_neg hnn, if_pos hmem, pyLen,
        exceptBindOk]
      rw [if_neg (by omega : ¬ A ≥ varnames.length)]
      simp [pyGetItem, hlt]
  · intro b lo hi h hfb hargc hle
    rw [disasmSteps, hfb]
    simp only [hargc, if_true]
    rw [if_neg (by decide : Op.LOAD_CONST ≠ Op.EXTENDED_ARG)]
    rw [Nat.zero_or]
    have hres : resolveArg tbl (.vtuple consts) (.vtuple names) (.vtuple varnames)
        Op.LOAD_CONST (lo ||| hi <<< 8) = .error (.invalidArgument (lo ||| hi <<< 8)) := by
      simp only [resolveArg, hargc, if_true, if_pos rfl, pyLen, exceptBindOk]
      rw [if_pos (by omega : lo ||| hi <<< 8 ≥ consts.length)]
    rw [hres, exceptBindError]

/-- Witness for C6: with a one-entry constant table, argument 1 fails
with the out-of-range error (also at the decode-loop level) and
argument 0 resolves to the entry. -/
theorem operand_index_bounds_witness :
    resolveArg witnessTable (.vtuple [.vint 7]) (.vtuple []) (.vtuple []) Op.LOAD_CONST 1
      = .error (.invalidArgument 1)
  ∧ resolveArg witnessTable (.vtuple [.vint 7]) (.vtuple []) (.vtuple []) Op.LOAD_CONST 0
      = .ok (some (.vint 7))
  ∧ disasmSteps witnessTable (.vtuple [.vint 7]) (.vtuple []) (.vtuple []) [100, 1, 0] 0 0
      initHState []
      = .error (.invalidArgument (1 ||| 0 <<< 8)) :=
  ⟨((operand_index_bounds witnessTable [.vint 7] [] [] Op.LOAD_CONST 1 rfl).1 rfl).1
     (by decide),
   ((operand_index_bounds witnessTable [.vint 7] [] [] Op.LOAD_CONST 0 rfl).1 rfl).2
     (by decide),
   (operand_index_bounds witnessTable [.vint 7] [] [] Op.LOAD_CONST 1 rfl).2.2.2 100 1 0
     initHState rfl rfl (by decide)⟩

/-- The string obtained from raw bytes by `read_string_ascii`
(`chr` of each byte). -/
def asciiOfBytes (bs : List Nat) : String :=
  String.mk (bs.map Char.ofNat)

/-- Decoding an interned string of known length leaves the rest and
appends the string to the table. -/
theorem read_byte_array_encode (data : List Nat) (rest : List Nat) (stbl : List String)
    (hlen : data.length < 2 ^ 31) :
    read_byte_array ⟨encode_int32 (data.length : Int) ++ (data ++ rest), stbl⟩
      = .ok (data, ⟨rest, stbl⟩) := by
  unfold read_byte_array
  rw [read_int32_encode (data.length : Int) _ stbl (by omega) (by omega)]
  simp only [exceptBindOk]
  rw [if_neg (by omega : ¬ ((data.length : Int) < 0))]
  have ht : ((data.length : Int)).toNat = data.length := by omega
  rw [ht]
  exact readBytes_append data rest stbl


/-- C7: within one deserialization pass, decoding an interned string
appends it to the string table (first conjunct); a later string-table
reference carrying the index of that entry decodes to an equal string
value (second conjunct, run in the post-interning state); and a
reference whose index is at or past the number of entries appended so
far, or negative, fails with the string-reference error (third
conjunct). -/
theorem string_table_behavior
    (tbl : OpTable) (fuel : Nat) (data : List Nat) (stbl : List String)
    (rest1 rest2 : List Nat)
    (hlen : data.length < 2 ^ 31) (hstbl : stbl.length < 2 ^ 31) :
    (unmarshal_node tbl (fuel + 1)
        ⟨116 :: (encode_int32 (data.length : Int) ++ (data ++ rest1)), stbl⟩
      = .ok (.vstr (asciiOfBytes data), ⟨rest1, stbl ++ [asciiOfBytes data]⟩))
  ∧ (unmarshal_node tbl (fuel + 1)
        ⟨82 :: (encode_int32 (stbl.length : Int) ++ rest2), stbl ++ [asciiOfBytes data]⟩
      = .ok (.vstr (asciiOfBytes data), ⟨rest2, stbl ++ [asciiOfBytes data]⟩))
  ∧ (∀ (j : Int) (stbl2 : List String), -(2 ^ 31) ≤ j → j < 2 ^ 31 →
        (j < 0 ∨ (stbl2.length : Int) ≤ j) →
        unmarshal_node tbl (fuel + 1) ⟨82 :: (encode_int32 j ++ rest2), stbl2⟩
          = .error (.malformedStringRef j)) := by
  refine ⟨?_, ?_, ?_⟩
  · rw [unmarshal_node, read_int8_byte 116 (by omega) _ stbl]
    simp only [exceptBindOk]
    norm_num [_TYPE_NONE, _TYPE_TRUE, _TYPE_FALSE, _TYPE_TUPLE, _TYPE_LIST, _TYPE_SET,
      _TYPE_FROZEN_SET, _TYPE_INT, _TYPE_INT64, _TYPE_BINARY_FLOAT, _TYPE_BINARY_COMPLEX,
      _TYPE_LONG, _TYPE_STRING, _TYPE_UNICODE, _TYPE_INTERNED]
    have hs : read_string_ascii ⟨encode_int32 (data.length : Int) ++ (data ++ rest1), stbl⟩
        = .ok (asciiOfBytes data, ⟨rest1, stbl⟩) := by
      simp only [read_string_ascii, read_byte_array_encode data rest1 stbl hlen,
        exceptBindOk]
      rfl
    rw [hs]
    rfl
  · rw [unmarshal_node, read_int8_byte 82 (by omega) _ (stbl ++ [asciiOfBytes data])]
    simp only [exceptBindOk]
    norm_num [_TYPE_NONE, _TYPE_TRUE, _TYPE_FALSE, _TYPE_TUPLE, _TYPE_LIST, _TYPE_SET,
      _TYPE_FROZEN_SET, _TYPE_INT, _TYPE_INT64, _TYPE_BINARY_FLOAT, _TYPE_BINARY_COMPLEX,
      _TYPE_LONG, _TYPE_STRING, _TYPE_UNICODE, _TYPE_INTERNED, _TYPE_STRING_REF]
    rw [read_int32_encode (stbl.length : Int) rest2 _ (by omega) (by omega)]
    simp only [exceptBindOk]
    rw [if_neg (by
      simp only [List.length_append, List.length_singleton]
      push_cast
      omega : ¬ ((stbl.length : Int) < 0
        ∨ (((stbl ++ [asciiOfBytes data]).length : Nat) : Int) ≤ (stbl.length : Int)))]
    have ht : ((stbl.length : Int)).toNat = stbl.length := by omega
    rw [ht, List.getElem?_concat_length]
    rfl
  · intro j stbl2 hj1 hj2 hcond
    rw [unmarshal_node, read_int8_byte 82 (by omega) _ stbl2]
    simp only [exceptBindOk]
    norm_num [_TYPE_NONE, _TYPE_TRUE, _TYPE_FALSE, _TYPE_TUPLE, _TYPE_LIST, _TYPE_SET,
      _TYPE_FROZEN_SET, _TYPE_INT, _TYPE_INT64, _TYPE_BINARY_FLOAT, _TYPE_BINARY_COMPLEX,
      _TYPE_LONG, _TYPE_STRING, _TYPE_UNICODE, _TYPE_INTERNED, _TYPE_STRING_REF]
    rw [read_int32_encode j rest2 stbl2 hj1 hj2]
    simp only [exceptBindOk]
    rw [if_pos hcond]

/-- Witness for C7 on the two-byte string "ab": interning appends it,
the reference at index 0 reads it back, and a reference at index 1
into the one-entry table fails. -/
theorem string_table_behavior_witness :
    (([97, 98] : List Nat).length < 2 ^ 31)
  ∧ (unmarshal_node witnessTable 1
        ⟨116 :: (encode_int32 (([97, 98] : List Nat).length : Int) ++ ([97, 98] ++ [])), []⟩
      = .ok (.vstr (asciiOfBytes [97, 98]), ⟨[], [] ++ [asciiOfBytes [97, 98]]⟩))
  ∧ (unmarshal_node witnessTable 1
        ⟨82 :: (encode_int32 (([] : List String).length : Int) ++ []),
          [] ++ [asciiOfBytes [97, 98]]⟩
      = .ok (.vstr (asciiOfBytes [97, 98]), ⟨[], [] ++ [asciiOfBytes [97, 98]]⟩))
  ∧ (unmarshal_node witnessTable 1 ⟨82 :: (encode_int32 1 ++ []), [asciiOfBytes [97, 98]]⟩
      = .error (.malformedStringRef 1)) :=
  ⟨by decide,
   (string_table_behavior witnessTable 0 [97, 98] [] [] [] (by decide) (by decide)).1,
   (string_table_behavior witnessTable 0 [97, 98] [] [] [] (by decide) (by decide)).2.1,
   (string_table_behavior witnessTable 0 [97, 98] [] [] [] (by decide) (by decide)).2.2
     1 [asciiOfBytes [97, 98]] (by decide) (by decide) (Or.inr (by decide))⟩

/-- C10 counterexample: a string value with the negative 32-bit count
`-1` followed by one more input byte.  The claim predicts the empty
string with no bytes consumed; the code instead lets `file.read(-1)`
consume the whole rest while `struct.unpack` gets the empty format
string, so `unpack` raises `struct.error` and deserialization fails. -/
theorem negative_string_count_counterexample :
    unmarshal_node witnessTable (0 + 1) ⟨[115, 255, 255, 255, 255, 65], []⟩
      = .error .structError
  ∧ unmarshal_node witnessTable (0 + 1) ⟨[115, 255, 255, 255, 255, 65], []⟩
      ≠ .ok (.vstr "", ⟨[65], []⟩) := by
  have heval : unmarshal_node witnessTable (0 + 1) ⟨[115, 255, 255, 255, 255, 65], []⟩
      = .error .structError := by
    rw [unmarshal_node, read_int8_byte 115 (by omega) _ []]
    simp only [exceptBindOk]
    norm_num [_TYPE_NONE, _TYPE_TRUE, _TYPE_FALSE, _TYPE_TUPLE, _TYPE_LIST, _TYPE_SET,
      _TYPE_FROZEN_SET, _TYPE_INT, _TYPE_INT64, _TYPE_BINARY_FLOAT, _TYPE_BINARY_COMPLEX,
      _TYPE_LONG, _TYPE_STRING]
    rw [show read_string_ascii ⟨[255, 255, 255, 255, 65], []⟩ = .error .structError from rfl]
    rfl
  refine ⟨heval, ?_⟩
  intro hcontra
  rw [heval] at hcontra
  exact Except.noConfusion hcontra

/-- C10 as amended: a negative 32-bit element count makes the four
collection decoders read zero elements and return the empty collection,
consuming no further bytes; the ASCII-string decoder, however, hands
the negative count to `file.read` -- which then consumes the entire
rest of the input -- and fails with `struct.error` unless the input was
already exhausted, in which case it returns the empty string. -/
theorem negative_count_behavior
    (tbl : OpTable) (fuel : Nat) (c : Int) (rest : List Nat) (stbl : List String)
    (hc1 : -(2 ^ 31) ≤ c) (hc2 : c < 0) :
    (unmarshal_node tbl (fuel + 1) ⟨40 :: (encode_int32 c ++ rest), stbl⟩
        = .ok (.vtuple [], ⟨rest, stbl⟩))
  ∧ (unmarshal_node tbl (fuel + 1) ⟨91 :: (encode_int32 c ++ rest), stbl⟩
        = .ok (.vlist [], ⟨rest, stbl⟩))
  ∧ (unmarshal_node tbl (fuel + 1) ⟨60 :: (encode_int32 c ++ rest), stbl⟩
        = .ok (.vset [], ⟨rest, stbl⟩))
  ∧ (unmarshal_node tbl (fuel + 1) ⟨62 :: (encode_int32 c ++ rest), stbl⟩
        = .ok (.vfrozenset [], ⟨rest, stbl⟩))
  ∧ (rest ≠ [] →
      unmarshal_node tbl (fuel + 1) ⟨115 :: (encode_int32 c ++ rest), stbl⟩
        = .error .structError)
  ∧ (unmarshal_node tbl (fuel + 1) ⟨115 :: (encode_int32 c ++ []), stbl⟩
        = .ok (.vstr "", ⟨[], stbl⟩)) := by
  have hcoll : ∀ wrap : List Value → Value,
      unmarshal_collection tbl fuel wrap ⟨encode_int32 c ++ rest, stbl⟩
        = .ok (wrap [], ⟨rest, stbl⟩) := by
    intro wrap
    rw [unmarshal_collection, read_int32_encode c rest stbl hc1 (by omega)]
    simp only [exceptBindOk]
    have ht : c.toNat = 0 := by omega
    rw [ht, unmarshal_list]
    rfl
  have hstr : ∀ rest2 : List Nat,
      read_byte_array ⟨encode_int32 c ++ rest2, stbl⟩
        = if rest2.isEmpty then .ok ([], ⟨rest2, stbl⟩) else .error .structError := by
    intro rest2
    unfold read_byte_array
    rw [read_int32_encode c rest2 stbl hc1 (by omega)]
    simp only [exceptBindOk]
    rw [if_pos hc2]
  refine ⟨?_, ?_, ?_, ?_, ?_, ?_⟩
  · rw [unmarshal_node, read_int8_byte 40 (by omega) _ stbl]
    simp only [exceptBindOk]
    norm_num [_TYPE_NONE, _TYPE_TRUE, _TYPE_FALSE, _TYPE_TUPLE]
    exact hcoll Value.vtuple
  · rw [unmarshal_node, read_int8_byte 91 (by omega) _ stbl]
    simp only [exceptBindOk]
    norm_num [_TYPE_NONE, _TYPE_TRUE, _TYPE_FALSE, _TYPE_TUPLE, _TYPE_LIST]
    exact hcoll Value.vlist
  · rw [unmarshal_node, read_int8_byte 60 (by omega) _ stbl]
    simp only [exceptBindOk]
    norm_num [_TYPE_NONE, _TYPE_TRUE, _TYPE_FALSE, _TYPE_TUPLE, _TYPE_LIST, _TYPE_SET]
    exact hcoll Value.vset
  · rw [unmarshal_node, read_int8_byte 62 (by omega) _ stbl]
    simp only [exceptBindOk]
    norm_num [_TYPE_NONE, _TYPE_TRUE, _TYPE_FALSE, _TYPE_TUPLE, _TYPE_LIST, _TYPE_SET,
      _TYPE_FROZEN_SET]
    exact hcoll Value.vfrozenset
  · intro hne
    rw [unmarshal_node, read_int8_byte 115 (by omega) _ stbl]
    simp only [exceptBindOk]
    norm_num [_TYPE_NONE, _TYPE_TRUE, _TYPE_FALSE, _TYPE_TUPLE, _TYPE_LIST, _TYPE_SET,
      _TYPE_FROZEN_SET, _TYPE_INT, _TYPE_INT64, _TYPE_BINARY_FLOAT, _TYPE_BINARY_COMPLEX,
      _TYPE_LONG, _TYPE_STRING]
    have hie : rest.isEmpty = false := by
      cases rest with
      | nil => exact absurd rfl hne
      | cons a l => rfl
    simp only [read_string_ascii, hstr rest, hie, Bool.false_eq_true, if_false,
      exceptBindError]
  · rw [unmarshal_node, read_int8_byte 115 (by omega) _ stbl]
    simp only [exceptBindOk]
    norm_num [_TYPE_NONE, _TYPE_TRUE, _TYPE_FALSE, _TYPE_TUPLE, _TYPE_LIST, _TYPE_SET,
      _TYPE_FROZEN_SET, _TYPE_INT, _TYPE_INT64, _TYPE_BINARY_FLOAT, _TYPE_BINARY_COMPLEX,
      _TYPE_LONG, _TYPE_STRING]
    have hread : read_byte_array ⟨encode_int32 c, stbl⟩ = .ok ([], ⟨[], stbl⟩) := by
      have h0 := hstr []
      simp only [List.append_nil, List.isEmpty_nil, if_true] at h0
      exact h0
    simp only [read_string_ascii, hread, exceptBindOk]
    rfl

/-- Witness for C10 as amended, at the count `-1`: an empty tuple, and
the string-tag failure when one byte remains next to the empty-input
success. -/
theorem negative_count_behavior_witness :
    (-(2 ^ 31) : Int) ≤ -1
  ∧ (unmarshal_node witnessTable (0 + 1) ⟨40 :: (encode_int32 (-1) ++ [65]), []⟩
        = .ok (.vtuple [], ⟨[65], []⟩))
  ∧ (unmarshal_node witnessTable (0 + 1) ⟨115 :: (encode_int32 (-1) ++ [65]), []⟩
        = .error .structError)
  ∧ (unmarshal_node witnessTable (0 + 1) ⟨115 :: (encode_int32 (-1) ++ []), []⟩
        = .ok (.vstr "", ⟨[], []⟩)) :=
  ⟨by decide,
   (negative_count_behavior witnessTable 0 (-1) [65] [] (by decide) (by decide)).1,
   (negative_count_behavior witnessTable 0 (-1) [65] [] (by decide) (by decide)).2.2.2.2.1
     (by decide),
   (negative_count_behavior witnessTable 0 (-1) [] [] (by decide) (by decide)).2.2.2.2.2⟩

/-- Witness for C5 at the representative set of the claim: 0, 1, -1,
`2^15`, `2^30 + 7` and `-(2^40 - 3)` all decode back from their bignum
encoding. -/
theorem bignum_roundtrip_witness :
    ((natDigits15 (Int.natAbs (-(2 ^ 40 - 3) : Int))).length < 2 ^ 31)
  ∧ (unmarshal_node witnessTable (0 + 1) ⟨108 :: (bignumPayload 0 ++ []), []⟩
      = .ok (.vint 0, ⟨[], []⟩))
  ∧ (unmarshal_node witnessTable (0 + 1) ⟨108 :: (bignumPayload 1 ++ []), []⟩
      = .ok (.vint 1, ⟨[], []⟩))
  ∧ (unmarshal_node witnessTable (0 + 1) ⟨108 :: (bignumPayload (-1) ++ []), []⟩
      = .ok (.vint (-1), ⟨[], []⟩))
  ∧ (unmarshal_node witnessTable (0 + 1) ⟨108 :: (bignumPayload (2 ^ 15) ++ []), []⟩
      = .ok (.vint (2 ^ 15), ⟨[], []⟩))
  ∧ (unmarshal_node witnessTable (0 + 1) ⟨108 :: (bignumPayload (2 ^ 30 + 7) ++ []), []⟩
      = .ok (.vint (2 ^ 30 + 7), ⟨[], []⟩))
  ∧ (unmarshal_node witnessTable (0 + 1) ⟨108 :: (bignumPayload (-(2 ^ 40 - 3)) ++ []), []⟩
      = .ok (.vint (-(2 ^ 40 - 3)), ⟨[], []⟩)) :=
  ⟨by decide,
   bignum_roundtrip witnessTable 0 0 [] [] (by decide),
   bignum_roundtrip witnessTable 0 1 [] [] (by decide),
   bignum_roundtrip witnessTable 0 (-1) [] [] (by decide),
   bignum_roundtrip witnessTable 0 (2 ^ 15) [] [] (by decide),
   bignum_roundtrip witnessTable 0 (2 ^ 30 + 7) [] [] (by decide),
   bignum_roundtrip witnessTable 0 (-(2 ^ 40 - 3)) [] [] (by decide)⟩
